import Mathlib

/-!
# payload-tracker-go: dimension resolvers, payload writer and consumer loop

A shallow embedding of `internal/queries/queries_consumer.go` and of the event loop of
`internal/kafka/kafka.go`.

* Mutable objects reached through pointers (`*gorm.DB`, `*expirable_lru.LRU`) are passed
  and returned explicitly.
* Clock readings taken by the cache library (`time.Now()`) are explicit arguments, in
  nanoseconds.
* `fmt.Printf` and logger output is not modelled.
-/

namespace PayloadTracker

/-! ## Data model -/

/-- The three dimension tables. -/
inductive Dim where
  | status
  | service
  | source
deriving DecidableEq, Repr

/-- Modelled from the spec: the declarations of `models.Statuses`, `models.Services` and
`models.Sources` are missing; a dimension row is `{Id (generated), Name (unique)}`. The
three Go types have the same shape and are kept apart by the index `d`. -/
structure Row (d : Dim) where
  Id : Nat
  Name : String
deriving DecidableEq, Repr

/-- The Go zero value of a dimension row: the value of `var status models.Statuses` and
of `models.Sources{}`. -/
instance (d : Dim) : Inhabited (Row d) := ⟨⟨0, ""⟩⟩

/-- The type `models.Statuses`. -/
abbrev Statuses := Row Dim.status

/-- The type `models.Services`. -/
abbrev Services := Row Dim.service

/-- The type `models.Sources`. -/
abbrev Sources := Row Dim.source

/-! ## The expiring cache of `hashicorp/golang-lru/v2/expirable` -/

/-- The constant `time.Hour`, in nanoseconds. -/
def Hour : Nat := 3600000000000

/-- The library's `noEvictionTTL`: ten years. -/
def noEvictionTTL : Nat := Hour * 24 * 365 * 10

/-- One cache entry: key, value and the instant after which it is no longer served. -/
structure Entry (V : Type) where
  Key : String
  Value : V
  ExpiresAt : Nat
deriving DecidableEq, Repr

/-- The cache object: capacity (`0` = unbounded), time to live, and the entries, most
recently used first. -/
structure LRU (V : Type) where
  size : Nat
  ttl : Nat
  evictList : List (Entry V)
deriving Repr

/-- The constructor `expirable.NewLRU(size, nil, ttl)`: a negative size becomes `0`, a non-positive ttl
becomes `noEvictionTTL`. The Go function returns a pointer; `none` stands for `nil`. -/
def NewLRU (V : Type) (size : Int) (ttl : Int) : Option (LRU V) :=
  some { size := size.toNat, ttl := if ttl ≤ 0 then noEvictionTTL else ttl.toNat, evictList := [] }

/-- The `items[key]` lookup of the library. -/
def LRU.item {V : Type} (c : LRU V) (key : String) : Option (Entry V) :=
  c.evictList.find? (fun e => decide (e.Key = key))

/-- The method `LRU.Get`, reading the clock as `now`: an entry is served unless `now` is after its
`ExpiresAt`; a served entry moves to the front of the eviction list. -/
def LRU.Get {V : Type} [Inhabited V] (c : LRU V) (now : Nat) (key : String) : LRU V × V × Bool :=
  match c.item key with
  | some ent =>
    if now > ent.ExpiresAt then (c, default, false)
    else ({ c with evictList := ent :: c.evictList.filter (fun e => decide (e.Key ≠ key)) },
          ent.Value, true)
  | none => (c, default, false)

/-- The method `LRU.Add`, reading the clock as `now`: an existing entry is replaced and its expiry
renewed; a new entry is pushed to the front, and the oldest entry is removed when a
positive capacity is exceeded. The boolean is `evicted`. -/
def LRU.Add {V : Type} (c : LRU V) (now : Nat) (key : String) (value : V) : LRU V × Bool :=
  match c.item key with
  | some _ =>
    ({ c with evictList :=
        ⟨key, value, now + c.ttl⟩ :: c.evictList.filter (fun e => decide (e.Key ≠ key)) }, false)
  | none =>
    let l := ⟨key, value, now + c.ttl⟩ :: c.evictList
    let evict := decide (0 < c.size ∧ c.size < l.length)
    (if evict then { c with evictList := l.dropLast } else { c with evictList := l }, evict)

/-- The library's background `deleteExpired` pass at clock reading `now`: it empties one
bucket of keys after waiting for the newest entry of the bucket to expire, so it removes
only entries whose `ExpiresAt` is not in the future. -/
def LRU.deleteExpired {V : Type} (c : LRU V) (now : Nat) (bucket : String → Bool) : LRU V :=
  { c with evictList := c.evictList.filter (fun e => !(bucket e.Key && decide (e.ExpiresAt ≤ now))) }

/-! ## Resolvers -/

/-- A `*gorm.DB` table of dimension rows with its identifier sequence (`seq` is the last
value handed out). -/
structure DimTable (d : Dim) where
  rows : List (Row d)
  seq : Nat
deriving Repr

/-- Modelled from the spec: the declaration of `models.Payloads` is missing; a payload is
`{Id (generated), RequestId (unique), Account, OrgId, InventoryId, SystemId}`. -/
structure Payloads where
  Id : Nat
  RequestId : String
  Account : String
  OrgId : String
  InventoryId : String
  SystemId : String
deriving DecidableEq, Repr

/-- A stored `payload_statuses` row; `none` is SQL `NULL`. -/
structure PayloadStatusRow where
  PayloadId : Option Nat
  StatusId : Option Nat
  ServiceId : Option Nat
  SourceId : Option Nat
  Date : Option Nat
  InventoryId : Option String
  SystemId : Option String
  Account : Option String
  OrgId : Option String
deriving DecidableEq, Repr

/-- The relational store behind a `*gorm.DB` handle. -/
structure GormDB where
  statuses : DimTable Dim.status
  services : DimTable Dim.service
  sources : DimTable Dim.source
  payloads : List Payloads
  payloadsSeq : Nat
  payloadStatuses : List PayloadStatusRow
deriving Repr

/-- The table of dimension `d`. -/
def GormDB.table (db : GormDB) : (d : Dim) → DimTable d
  | Dim.status => db.statuses
  | Dim.service => db.services
  | Dim.source => db.sources

/-- Replace the table of dimension `d`. -/
def GormDB.setTable (db : GormDB) : (d : Dim) → DimTable d → GormDB
  | Dim.status, t => { db with statuses := t }
  | Dim.service, t => { db with services := t }
  | Dim.source, t => { db with sources := t }

/-- SQL `ORDER BY id LIMIT 1`: the row of least identifier, the earliest one among equals. -/
def orderByIdLimit1 {α : Type} (id : α → Nat) : List α → Option α
  | [] => none
  | r :: rs =>
    match orderByIdLimit1 id rs with
    | none => some r
    | some m => if id r ≤ id m then some r else some m

/-- gorm `db.Where("name = ?", name).First(&dest)` on a dimension table: `dest` is
overwritten with the first matching row in primary-key order, and is left untouched when
no row matches (the `ErrRecordNotFound` of the returned handle is the caller's to read). -/
def GormDB.WhereNameFirst (db : GormDB) (d : Dim) (name : String) (dest : Row d) : Row d :=
  match orderByIdLimit1 (fun r => r.Id) ((db.table d).rows.filter (fun r => decide (r.Name = name))) with
  | some r => r
  | none => dest

/-- The interface `PayloadFieldsRepository`. A method returns its row together with the
receiver after the call. -/
class PayloadFieldsRepository (R : Type) where
  GetStatus : R → String → Statuses × R
  GetService : R → String → Services × R
  GetSource : R → String → Sources × R

/-- The direct resolver; `DB` is the store its handle reaches at the time of the call. -/
structure PayloadFieldsRepositoryFromDB where
  DB : GormDB
deriving Repr

/-- The cached resolver around a resolver of type `R`. -/
structure PayloadFieldsRepositoryFromCache (R : Type) where
  PayloadFields : R
  statusCache : LRU Statuses
  serviceCache : LRU Services
  sourceCache : LRU Sources

/-- The method `PayloadFieldsRepositoryFromDB.GetStatus`; the handle returned by `First`,
and with it any error, is dropped. -/
def PayloadFieldsRepositoryFromDB.GetStatus (p : PayloadFieldsRepositoryFromDB)
    (statusName : String) : Statuses :=
  let status : Statuses := default
  p.DB.WhereNameFirst Dim.status statusName status

/-- The method `PayloadFieldsRepositoryFromDB.GetService`. -/
def PayloadFieldsRepositoryFromDB.GetService (p : PayloadFieldsRepositoryFromDB)
    (serviceName : String) : Services :=
  let service : Services := default
  p.DB.WhereNameFirst Dim.service serviceName service

/-- The method `PayloadFieldsRepositoryFromDB.GetSource`. -/
def PayloadFieldsRepositoryFromDB.GetSource (p : PayloadFieldsRepositoryFromDB)
    (sourceName : String) : Sources :=
  let source : Sources := default
  p.DB.WhereNameFirst Dim.source sourceName source

/-- The direct resolver implements the interface; a lookup does not change it. -/
instance : PayloadFieldsRepository PayloadFieldsRepositoryFromDB where
  GetStatus p n := (p.GetStatus n, p)
  GetService p n := (p.GetService n, p)
  GetSource p n := (p.GetSource n, p)

/-- The method `PayloadFieldsRepositoryFromCache.GetStatus`; `tGet` and `tAdd` are the clock readings
taken by `statusCache.Get` and `statusCache.Add`. -/
def PayloadFieldsRepositoryFromCache.GetStatus {R : Type} [PayloadFieldsRepository R]
    (p : PayloadFieldsRepositoryFromCache R) (tGet tAdd : Nat) (statusName : String) :
    Statuses × PayloadFieldsRepositoryFromCache R :=
  let (statusCache, cached, ok) := p.statusCache.Get tGet statusName
  if ok then (cached, { p with statusCache := statusCache })
  else
    let (dbEntry, inner) := PayloadFieldsRepository.GetStatus p.PayloadFields statusName
    let (statusCache, _) := statusCache.Add tAdd statusName dbEntry
    (dbEntry, { p with PayloadFields := inner, statusCache := statusCache })

/-- The method `PayloadFieldsRepositoryFromCache.GetService`, with the clock readings of
`serviceCache.Get` and `serviceCache.Add`. -/
def PayloadFieldsRepositoryFromCache.GetService {R : Type} [PayloadFieldsRepository R]
    (p : PayloadFieldsRepositoryFromCache R) (tGet tAdd : Nat) (serviceName : String) :
    Services × PayloadFieldsRepositoryFromCache R :=
  let (serviceCache, cached, ok) := p.serviceCache.Get tGet serviceName
  if ok then (cached, { p with serviceCache := serviceCache })
  else
    let (dbEntry, inner) := PayloadFieldsRepository.GetService p.PayloadFields serviceName
    let (serviceCache, _) := serviceCache.Add tAdd serviceName dbEntry
    (dbEntry, { p with PayloadFields := inner, serviceCache := serviceCache })

/-- The method `PayloadFieldsRepositoryFromCache.GetSource`, with the clock readings of
`sourceCache.Get` and `sourceCache.Add`. -/
def PayloadFieldsRepositoryFromCache.GetSource {R : Type} [PayloadFieldsRepository R]
    (p : PayloadFieldsRepositoryFromCache R) (tGet tAdd : Nat) (sourceName : String) :
    Sources × PayloadFieldsRepositoryFromCache R :=
  let (sourceCache, cached, ok) := p.sourceCache.Get tGet sourceName
  if ok then (cached, { p with sourceCache := sourceCache })
  else
    let (dbEntry, inner) := PayloadFieldsRepository.GetSource p.PayloadFields sourceName
    let (sourceCache, _) := sourceCache.Add tAdd sourceName dbEntry
    (dbEntry, { p with PayloadFields := inner, sourceCache := sourceCache })

/-- The function `newPayloadFieldsRepositoryFromCache`: three unbounded caches with a time to live of
twelve hours around the given resolver. -/
def newPayloadFieldsRepositoryFromCache {R : Type} (payloadFieldsRepository : R) :
    Except String (PayloadFieldsRepositoryFromCache R) :=
  match NewLRU Statuses 0 (12 * Hour) with
  | none => Except.error "unable to create LRU cache for caching Status results"
  | some statusCache =>
    match NewLRU Services 0 (12 * Hour) with
    | none => Except.error "unable to create LRU cache for caching Service results"
    | some serviceCache =>
      match NewLRU Sources 0 (12 * Hour) with
      | none => Except.error "unable to create LRU cache for caching Source results"
      | some sourceCache =>
        Except.ok { PayloadFields := payloadFieldsRepository, statusCache := statusCache,
                    serviceCache := serviceCache, sourceCache := sourceCache }

/-- Modelled from the spec: `config.TrackerConfig` is missing; the factory reads the
selector `cfg.ConsumerConfig.ConsumerPayloadFieldsRepoImpl`. -/
structure ConsumerCfg where
  ConsumerPayloadFieldsRepoImpl : String
deriving Repr

/-- Modelled from the spec: see `ConsumerCfg`. -/
structure TrackerConfig where
  ConsumerConfig : ConsumerCfg
deriving Repr

/-- The dynamic type of the interface value returned by `NewPayloadFieldsRepository`. -/
inductive Resolver where
  | fromDB (p : PayloadFieldsRepositoryFromDB)
  | fromCache (p : PayloadFieldsRepositoryFromCache PayloadFieldsRepositoryFromDB)

/-- The function `NewPayloadFieldsRepository`; `Except.error` is the pair `(nil, err)`. -/
def NewPayloadFieldsRepository (db : GormDB) (cfg : TrackerConfig) : Except String Resolver :=
  let payloadDB : PayloadFieldsRepositoryFromDB := { DB := db }
  if cfg.ConsumerConfig.ConsumerPayloadFieldsRepoImpl = "db" then
    Except.ok (Resolver.fromDB payloadDB)
  else if cfg.ConsumerConfig.ConsumerPayloadFieldsRepoImpl = "db_with_cache" then
    match newPayloadFieldsRepositoryFromCache payloadDB with
    | Except.ok p => Except.ok (Resolver.fromCache p)
    | Except.error err => Except.error err
  else
    Except.error "unable to configure PayloadFieldRepository implementation"

/-! ## Observing the cached resolver -/

/-- A resolver under observation: `calls` counts the method calls that reached it. -/
structure Counted (R : Type) where
  inner : R
  calls : Nat

/-- An observed resolver answers as the resolver it observes and counts the call. -/
instance {R : Type} [PayloadFieldsRepository R] : PayloadFieldsRepository (Counted R) where
  GetStatus c n :=
    ((PayloadFieldsRepository.GetStatus c.inner n).1,
     ⟨(PayloadFieldsRepository.GetStatus c.inner n).2, c.calls + 1⟩)
  GetService c n :=
    ((PayloadFieldsRepository.GetService c.inner n).1,
     ⟨(PayloadFieldsRepository.GetService c.inner n).2, c.calls + 1⟩)
  GetSource c n :=
    ((PayloadFieldsRepository.GetSource c.inner n).1,
     ⟨(PayloadFieldsRepository.GetSource c.inner n).2, c.calls + 1⟩)

/-- The interface method for dimension `d`. -/
def PayloadFieldsRepository.Get {R : Type} [PayloadFieldsRepository R] :
    (d : Dim) → R → String → Row d × R
  | Dim.status => PayloadFieldsRepository.GetStatus
  | Dim.service => PayloadFieldsRepository.GetService
  | Dim.source => PayloadFieldsRepository.GetSource

/-- The cache of dimension `d`. -/
def PayloadFieldsRepositoryFromCache.cache {R : Type} (p : PayloadFieldsRepositoryFromCache R) :
    (d : Dim) → LRU (Row d)
  | Dim.status => p.statusCache
  | Dim.service => p.serviceCache
  | Dim.source => p.sourceCache

/-- Replace the cache of dimension `d`. -/
def PayloadFieldsRepositoryFromCache.withCache {R : Type} (p : PayloadFieldsRepositoryFromCache R) :
    (d : Dim) → LRU (Row d) → PayloadFieldsRepositoryFromCache R
  | Dim.status, c => { p with statusCache := c }
  | Dim.service, c => { p with serviceCache := c }
  | Dim.source, c => { p with sourceCache := c }

/-- The cached method for dimension `d`: `GetStatus`, `GetService` or `GetSource`. -/
def PayloadFieldsRepositoryFromCache.Get {R : Type} [PayloadFieldsRepository R] :
    (d : Dim) → PayloadFieldsRepositoryFromCache R → Nat → Nat → String →
      Row d × PayloadFieldsRepositoryFromCache R
  | Dim.status => PayloadFieldsRepositoryFromCache.GetStatus
  | Dim.service => PayloadFieldsRepositoryFromCache.GetService
  | Dim.source => PayloadFieldsRepositoryFromCache.GetSource

/-- What can happen to a cached resolver between two calls of interest: a lookup, a
background expiry pass of one cache, or a change of the wrapped resolver (for instance
of the rows behind it). -/
inductive Activity (R : Type) where
  | lookup (d : Dim) (tGet tAdd : Nat) (name : String)
  | deleteExpired (d : Dim) (now : Nat) (bucket : String → Bool)
  | backing (f : R → R)

/-- The effect of one activity. -/
def Activity.apply {R : Type} [PayloadFieldsRepository R] :
    Activity R → PayloadFieldsRepositoryFromCache R → PayloadFieldsRepositoryFromCache R
  | Activity.lookup d tGet tAdd name, p => (p.Get d tGet tAdd name).2
  | Activity.deleteExpired d now bucket, p => p.withCache d ((p.cache d).deleteExpired now bucket)
  | Activity.backing f, p => { p with PayloadFields := f p.PayloadFields }

/-- The effect of a sequence of activities, in order. -/
def run {R : Type} [PayloadFieldsRepository R] :
    List (Activity R) → PayloadFieldsRepositoryFromCache R → PayloadFieldsRepositoryFromCache R
  | [], p => p
  | a :: rest, p => run rest (a.apply p)

/-- The activity reads the clock (if at all) before instant `e`. -/
def Activity.before {R : Type} (e : Nat) : Activity R → Bool
  | Activity.lookup _ tGet _ _ => decide (tGet < e)
  | Activity.deleteExpired _ now _ => decide (now < e)
  | Activity.backing _ => true

/-- Every lookup of `name` in dimension `d` along the sequence is served from the cache. -/
def hitsOnly {R : Type} [PayloadFieldsRepository R] (d : Dim) (name : String) :
    List (Activity R) → PayloadFieldsRepositoryFromCache R → Bool
  | [], _ => true
  | a :: rest, p =>
    (match a with
      | Activity.lookup d' tGet _ n =>
        if d' = d ∧ n = name then ((p.cache d).Get tGet name).2.2 else true
      | _ => true) && hitsOnly d name rest (a.apply p)

/-- The caches are the ones the factory builds: unbounded, twelve hours to live. -/
def Configured {R : Type} (p : PayloadFieldsRepositoryFromCache R) : Prop :=
  ∀ d, (p.cache d).size = 0 ∧ (p.cache d).ttl = 12 * Hour

/-- Every entry stored under `name` in the cache of dimension `d` expires at `e`. -/
def ExpiresOnlyAt {R : Type} (d : Dim) (name : String) (e : Nat) (p : PayloadFieldsRepositoryFromCache R) :
    Prop :=
  ∀ ent ∈ (p.cache d).evictList, ent.Key = name → ent.ExpiresAt = e


/-! ## The payload writer -/

/-- The errors a returned `*gorm.DB` can carry. -/
inductive GormError where
  | recordNotFound
  | duplicatedKey
  | foreignKeyViolated
deriving DecidableEq, Repr

/-- The `*gorm.DB` returned by a gorm call: the store after the statement, and `Error`. -/
structure Tx where
  DB : GormDB
  Error : Option GormError
deriving Repr

/-- gorm `db.Create(&row)` on a dimension table, a plain `INSERT ... RETURNING id`. A zero
`Id` is left to the table's sequence. The primary key and the unique `name` (spec:
`Name (unique)`) reject a duplicate with an error; the store and `row` are then left as
they were. -/
def GormDB.CreateRow (db : GormDB) (d : Dim) (row : Row d) : Tx × Row d :=
  let t := db.table d
  let seq := if row.Id = 0 then t.seq + 1 else t.seq
  let cand : Row d := if row.Id = 0 then { row with Id := t.seq + 1 } else row
  if t.rows.any (fun r => decide (r.Id = cand.Id) || decide (r.Name = cand.Name)) then
    ({ DB := db, Error := some GormError.duplicatedKey }, row)
  else
    ({ DB := db.setTable d { rows := t.rows ++ [cand], seq := seq }, Error := none }, cand)

/-- The function `CreateStatusTableEntry`. -/
def CreateStatusTableEntry (db : GormDB) (name : String) : Tx × Statuses :=
  let newStatus : Statuses := { Id := 0, Name := name }
  let (results, newStatus) := db.CreateRow Dim.status newStatus
  (results, newStatus)

/-- The function `CreateSourceTableEntry`. -/
def CreateSourceTableEntry (db : GormDB) (name : String) : Tx × Sources :=
  let newSource : Sources := { Id := 0, Name := name }
  let (results, newSource) := db.CreateRow Dim.source newSource
  (results, newSource)

/-- The function `CreateServiceTableEntry`. -/
def CreateServiceTableEntry (db : GormDB) (name : String) : Tx × Services :=
  let newService : Services := { Id := 0, Name := name }
  let (results, newService) := db.CreateRow Dim.service newService
  (results, newService)

/-- The function creating a row of dimension `d`. -/
def CreateTableEntry : (d : Dim) → GormDB → String → Tx × Row d
  | Dim.status => CreateStatusTableEntry
  | Dim.service => CreateServiceTableEntry
  | Dim.source => CreateSourceTableEntry

/-- The `DO UPDATE SET c = excluded.c` of `clause.AssignmentColumns(columns)`: each listed
column of the stored row takes the value proposed for insertion. -/
def assignColumns (columns : List String) (excluded stored : Payloads) : Payloads :=
  { Id := if "id" ∈ columns then excluded.Id else stored.Id
    RequestId := if "request_id" ∈ columns then excluded.RequestId else stored.RequestId
    Account := if "account" ∈ columns then excluded.Account else stored.Account
    OrgId := if "org_id" ∈ columns then excluded.OrgId else stored.OrgId
    InventoryId := if "inventory_id" ∈ columns then excluded.InventoryId else stored.InventoryId
    SystemId := if "system_id" ∈ columns then excluded.SystemId else stored.SystemId }

/-- gorm `db.Model(&payload).Clauses(clause.OnConflict{Columns: {request_id},
DoUpdates: clause.AssignmentColumns(columns)}).Create(&payload)`, that is
`INSERT ... ON CONFLICT (request_id) DO UPDATE SET ... RETURNING id`.
A zero `Id` is left to the sequence. A stored row with the same `request_id` is updated
in the listed columns and its `id` is returned into `payload`; without such a row the
proposed row is inserted, unless its `id` is taken, which is an error that leaves the
store as it was. `request_id` is unique in the table, so at most one stored row is the
conflicting one. -/
def GormDB.CreatePayloadOnConflict (db : GormDB) (columns : List String) (payload : Payloads) :
    Tx × Payloads :=
  let seq := if payload.Id = 0 then db.payloadsSeq + 1 else db.payloadsSeq
  let cand : Payloads := if payload.Id = 0 then { payload with Id := db.payloadsSeq + 1 } else payload
  match db.payloads.find? (fun r => decide (r.RequestId = payload.RequestId)) with
  | some old =>
    ({ DB := { db with
                payloadsSeq := seq
                payloads := db.payloads.map (fun r =>
                  if r.RequestId = payload.RequestId then assignColumns columns cand r else r) },
       Error := none },
     { payload with Id := (assignColumns columns cand old).Id })
  | none =>
    if db.payloads.any (fun r => decide (r.Id = cand.Id)) then
      ({ DB := db, Error := some GormError.duplicatedKey }, payload)
    else
      ({ DB := { db with payloadsSeq := seq, payloads := db.payloads ++ [cand] }, Error := none },
       cand)

/-- The `columnsToUpdate` slice built by `UpsertPayloadByRequestId`. -/
def UpsertPayloadByRequestId.columnsToUpdate (payload : Payloads) : List String :=
  let columnsToUpdate := ["request_id"]
  let columnsToUpdate :=
    if payload.Account ≠ "" then columnsToUpdate ++ ["account"] else columnsToUpdate
  let columnsToUpdate :=
    if payload.OrgId ≠ "" then columnsToUpdate ++ ["org_id"] else columnsToUpdate
  let columnsToUpdate :=
    if payload.InventoryId ≠ "" then columnsToUpdate ++ ["inventory_id"] else columnsToUpdate
  let columnsToUpdate :=
    if payload.SystemId ≠ "" then columnsToUpdate ++ ["system_id"] else columnsToUpdate
  columnsToUpdate

set_option linter.unusedVariables false in
/-- The function `UpsertPayloadByRequestId`; the body never reads the parameter `request_id`. -/
def UpsertPayloadByRequestId (db : GormDB) (request_id : String) (payload : Payloads) : Tx × Nat :=
  let columnsToUpdate := UpsertPayloadByRequestId.columnsToUpdate payload
  let (result, payload) := db.CreatePayloadOnConflict columnsToUpdate payload
  (result, payload.Id)

/-- The function `GetPayloadByRequestId`: `db.Where("request_id = ?", request_id).First(&payload)`
returns the stored payload of that `request_id`, or the zero value and the error of the
handle when there is none. -/
def GetPayloadByRequestId (db : GormDB) (request_id : String) : Payloads × Option GormError :=
  let payload : Payloads := ⟨0, "", "", "", "", ""⟩
  match orderByIdLimit1 (fun r => r.Id)
      (db.payloads.filter (fun r => decide (r.RequestId = request_id))) with
  | none => (payload, some GormError.recordNotFound)
  | some found => (found, none)

/-- Modelled from the spec: the declaration of `models.PayloadStatuses` is missing; the
event is `{PayloadId, StatusId, ServiceId, SourceId, Date}` with copies of
`Account/OrgId/InventoryId/SystemId`, and the code reads its belongs-to field `Source`. -/
structure PayloadStatuses where
  PayloadId : Nat
  StatusId : Nat
  ServiceId : Nat
  SourceId : Nat
  Source : Sources
  Date : Nat
  InventoryId : String
  SystemId : String
  Account : String
  OrgId : String
deriving DecidableEq, Repr

/-- Modelled from the spec: the columns of a stored `PayloadStatuses` event, one per field
of the spec's data model, under the names the constant `StatusColumns` gives them. -/
def payloadStatusColumns : List String :=
  ["payload_id", "status_id", "service_id", "source_id", "date", "inventory_id", "system_id",
   "account", "org_id"]

/-- An `INSERT INTO payload_statuses`: the columns it names and the row it stores; a
column it does not name is stored as `NULL`. -/
structure InsertStatement where
  columns : List String
  row : PayloadStatusRow
deriving DecidableEq, Repr

/-- gorm saves a set belongs-to association before the owner:
`INSERT INTO sources ... ON CONFLICT DO NOTHING RETURNING id`. A zero `Id` is left to the
sequence; on a conflict the store is left as it was and `src` keeps its fields. -/
def GormDB.saveSource (db : GormDB) (src : Sources) : GormDB × Sources :=
  let t := db.sources
  let seq := if src.Id = 0 then t.seq + 1 else t.seq
  let cand : Sources := if src.Id = 0 then { src with Id := t.seq + 1 } else src
  if t.rows.any (fun r => decide (r.Id = cand.Id) || decide (r.Name = cand.Name)) then
    (db, src)
  else
    ({ db with sources := { rows := t.rows ++ [cand], seq := seq } }, cand)

/-- The value written for `column`, or `NULL` when the statement does not name it. -/
def written {α : Type} (columns : List String) (column : String) (value : α) : Option α :=
  if column ∈ columns then some value else none

/-- Before the owner is written, gorm saves each set belongs-to association and copies
its primary key into the owner's foreign-key field; a zero-value `Source` is skipped. -/
def GormDB.saveAssociations (db : GormDB) (payloadStatus : PayloadStatuses) :
    GormDB × PayloadStatuses :=
  if payloadStatus.Source ≠ default then
    let (db1, src) := db.saveSource payloadStatus.Source
    (db1, { payloadStatus with Source := src, SourceId := src.Id })
  else (db, payloadStatus)

/-- The `INSERT` gorm builds for an event: the columns that are not omitted, with the
event's values. -/
def insertStatement (omitted : List String) (ps : PayloadStatuses) : InsertStatement :=
  let columns := payloadStatusColumns.filter (fun c => decide (c ∉ omitted))
  { columns := columns
    row :=
      { PayloadId := written columns "payload_id" ps.PayloadId
        StatusId := written columns "status_id" ps.StatusId
        ServiceId := written columns "service_id" ps.ServiceId
        SourceId := written columns "source_id" ps.SourceId
        Date := written columns "date" ps.Date
        InventoryId := written columns "inventory_id" ps.InventoryId
        SystemId := written columns "system_id" ps.SystemId
        Account := written columns "account" ps.Account
        OrgId := written columns "org_id" ps.OrgId } }

/-- A foreign key holds when it is `NULL` or names a stored identifier. -/
def refOk (ids : List Nat) (v : Option Nat) : Bool :=
  match v with
  | none => true
  | some i => decide (i ∈ ids)

/-- The four foreign keys of a `payload_statuses` row. -/
def GormDB.referencesHold (db : GormDB) (row : PayloadStatusRow) : Bool :=
  refOk (db.payloads.map (fun r => r.Id)) row.PayloadId
    && refOk (db.statuses.rows.map (fun r => r.Id)) row.StatusId
    && refOk (db.services.rows.map (fun r => r.Id)) row.ServiceId
    && refOk (db.sources.rows.map (fun r => r.Id)) row.SourceId

/-- gorm `db.Omit(omitted...).Create(&payloadStatus)`: within one transaction, save the
associations, then issue the `INSERT`, which the store refuses when a foreign key does
not hold; a refused `INSERT` rolls the transaction back, so the store is as it was before
the call. The result is the returned handle, the event as the call leaves it, and the
statement issued. -/
def GormDB.CreatePayloadStatus (db : GormDB) (omitted : List String)
    (payloadStatus : PayloadStatuses) : Tx × PayloadStatuses × InsertStatement :=
  let (db1, ps) := db.saveAssociations payloadStatus
  let stmt := insertStatement omitted ps
  if db1.referencesHold stmt.row then
    ({ DB := { db1 with payloadStatuses := db1.payloadStatuses ++ [stmt.row] }, Error := none },
     ps, stmt)
  else
    ({ DB := db, Error := some GormError.foreignKeyViolated }, ps, stmt)

/-- The function `InsertPayloadStatus`; the event behind the pointer and the statement issued are
returned next to the handle. -/
def InsertPayloadStatus (db : GormDB) (payloadStatus : PayloadStatuses) :
    Tx × PayloadStatuses × InsertStatement :=
  if (default : Sources) = payloadStatus.Source then
    db.CreatePayloadStatus ["source_id"] payloadStatus
  else
    db.CreatePayloadStatus [] payloadStatus

/-! ## The consumer event loop -/

/-- A `*kafka.Message`; only its identity matters to the loop. -/
structure KafkaMessage where
  Key : String
  Value : String
deriving DecidableEq, Repr

/-- What `consumer.Poll` can return, by the cases of the loop's type switch. -/
inductive KafkaEvent where
  | Message (e : KafkaMessage)
  | Error (code : Int)
  | OffsetsCommitted (error : Option String)
  | Other (description : String)
deriving DecidableEq, Repr

/-- The signals `signal.Notify` subscribes to. -/
inductive Signal where
  | SIGINT
  | SIGTERM
deriving DecidableEq, Repr

/-- What the loop meets in one iteration: the signal waiting in `sigchan` at the `select`,
if any, and what `consumer.Poll(100)` returns if it is called (`none` is `nil`). -/
structure Iteration where
  sig : Option Signal
  event : Option KafkaEvent
deriving DecidableEq, Repr

/-- The state the loop works on. `H` is the state reachable by `handler.onMessage`;
`polls` and `closes` count the calls of `consumer.Poll` and `consumer.Close`. -/
structure LoopState (H : Type) where
  run : Bool
  handler : H
  polls : Nat
  closes : Nat
  consumedMessages : Nat
  consumeErrors : Nat
deriving Repr

/-- Modelled from the spec: `endpoints.IncConsumedMessages` is missing; it increments the
consumed-message counter. -/
def IncConsumedMessages {H : Type} (s : LoopState H) : LoopState H :=
  { s with consumedMessages := s.consumedMessages + 1 }

/-- Modelled from the spec: `endpoints.IncConsumeErrors` is missing; it increments the
consume-error counter. -/
def IncConsumeErrors {H : Type} (s : LoopState H) : LoopState H :=
  { s with consumeErrors := s.consumeErrors + 1 }

/-- One pass through the body of `for run { select { ... } }`. `onMessage` stands for
`handler.onMessage`, whose code is missing: it can change what the handler reaches and
nothing of the loop. -/
def loopBody {H : Type} (onMessage : H → KafkaMessage → H) (s : LoopState H) (i : Iteration) :
    LoopState H :=
  match i.sig with
  | some _ => { s with run := false }
  | none =>
    let s := { s with polls := s.polls + 1 }
    match i.event with
    | none => s
    | some (KafkaEvent.Message e) =>
      let s := IncConsumedMessages s
      { s with handler := onMessage s.handler e }
    | some (KafkaEvent.Error _) => IncConsumeErrors s
    | some (KafkaEvent.OffsetsCommitted _) => s
    | some (KafkaEvent.Other _) => s

/-- The loop `for run { ... }` against the iterations the environment supplies; it stops
consuming them once `run` is false. -/
def forRun {H : Type} (onMessage : H → KafkaMessage → H) : LoopState H → List Iteration → LoopState H
  | s, [] => s
  | s, i :: rest => if s.run then forRun onMessage (loopBody onMessage s i) rest else s

/-- How far `NewConsumerEventLoop` got on the iterations supplied. -/
inductive Outcome (H : Type) where
  | fatal (err : String)
  | looping (s : LoopState H)
  | returned (s : LoopState H)

/-- The function `NewConsumerEventLoop`: build the resolver (a failure is `l.Log.Fatal`), loop, and
`consumer.Close()` once the loop is left. The handler starts from `mkHandler` applied to
the store and the resolver. -/
def NewConsumerEventLoop {H : Type} (mkHandler : GormDB → Resolver → H)
    (onMessage : H → KafkaMessage → H) (cfg : TrackerConfig) (db : GormDB)
    (env : List Iteration) : Outcome H :=
  match NewPayloadFieldsRepository db cfg with
  | Except.error err => Outcome.fatal err
  | Except.ok payloadFieldsRepository =>
    let handler := mkHandler db payloadFieldsRepository
    let s := forRun onMessage
      { run := true, handler := handler, polls := 0, closes := 0, consumedMessages := 0,
        consumeErrors := 0 } env
    if s.run then Outcome.looping s else Outcome.returned { s with closes := s.closes + 1 }

/-! ## Example inputs -/

/-- A store with no rows. -/
def emptyDB : GormDB :=
  { statuses := ⟨[], 0⟩, services := ⟨[], 0⟩, sources := ⟨[], 0⟩, payloads := [], payloadsSeq := 0,
    payloadStatuses := [] }

/-- A store whose `statuses` table holds the single row `received`. -/
def receivedDB : GormDB :=
  { emptyDB with statuses := ⟨[⟨1, "received"⟩], 1⟩ }

/-- A store with one payload `r1`, the status `received`, the service `ingress` and the
source `inventory`. -/
def sampleDB : GormDB :=
  { statuses := ⟨[⟨1, "received"⟩], 1⟩
    services := ⟨[⟨1, "ingress"⟩], 1⟩
    sources := ⟨[⟨1, "inventory"⟩], 1⟩
    payloads := [⟨1, "r1", "A", "", "", ""⟩]
    payloadsSeq := 1
    payloadStatuses := [] }
/-! ## Facts about the cache library -/

theorem LRU.item_mem {V : Type} (c : LRU V) (k : String) (ent : Entry V)
    (h : c.item k = some ent) : ent ∈ c.evictList ∧ ent.Key = k := by
  unfold LRU.item at h
  exact ⟨List.mem_of_find?_eq_some h, by simpa using List.find?_some h⟩

theorem find_filter_of_imp {α : Type} (p q : α → Bool) (hpq : ∀ x, p x = true → q x = true) :
    ∀ l : List α, (l.filter q).find? p = l.find? p
  | [] => rfl
  | a :: l => by
    have ih := find_filter_of_imp p q hpq l
    cases hp : p a with
    | true =>
      rw [List.filter_cons_of_pos (hpq a hp), List.find?_cons_of_pos _ hp,
        List.find?_cons_of_pos _ hp]
    | false =>
      have hp' : ¬ (p a = true) := by simp [hp]
      cases hq : q a with
      | true =>
        rw [List.filter_cons_of_pos hq, List.find?_cons_of_neg _ hp',
          List.find?_cons_of_neg _ hp', ih]
      | false =>
        have hq' : ¬ (q a = true) := by simp [hq]
        rw [List.filter_cons_of_neg hq', List.find?_cons_of_neg _ hp', ih]

theorem find_filter_keep {α : Type} (p q : α → Bool) (e : α) (hq : q e = true) :
    ∀ l : List α, l.find? p = some e → (l.filter q).find? p = some e
  | [], h => by simp at h
  | a :: l, h => by
    cases hp : p a with
    | true =>
      rw [List.find?_cons_of_pos _ hp] at h
      cases h
      rw [List.filter_cons_of_pos hq, List.find?_cons_of_pos _ hp]
    | false =>
      have hp' : ¬ (p a = true) := by simp [hp]
      rw [List.find?_cons_of_neg _ hp'] at h
      have ih := find_filter_keep p q e hq l h
      cases hqa : q a with
      | true => rw [List.filter_cons_of_pos hqa, List.find?_cons_of_neg _ hp', ih]
      | false =>
        have hqa' : ¬ (q a = true) := by simp [hqa]
        rw [List.filter_cons_of_neg hqa', ih]

theorem find_filter_ne {V : Type} (l : List (Entry V)) (k k' : String) (h : k' ≠ k) :
    (l.filter (fun e => decide (e.Key ≠ k))).find? (fun e => decide (e.Key = k'))
      = l.find? (fun e => decide (e.Key = k')) := by
  apply find_filter_of_imp
  intro x hx
  have hx' : x.Key = k' := by simpa using hx
  simp [hx', h]

theorem LRU.Get_item {V : Type} [Inhabited V] (c : LRU V) (now : Nat) (k k' : String) :
    (c.Get now k).1.item k' = c.item k' := by
  unfold LRU.Get
  cases hk : c.item k with
  | none => rfl
  | some ent =>
    by_cases hnow : now > ent.ExpiresAt
    · simp [hnow]
    · simp only [hnow, if_false]
      have hent := c.item_mem k ent hk
      by_cases hkk : k' = k
      · subst hkk
        simp [LRU.item, hent.2] at hk ⊢
        exact hk.symm
      · have hne : ent.Key ≠ k' := by rw [hent.2]; exact fun h' => hkk h'.symm
        simp only [LRU.item, List.find?_cons, hne, decide_False]
        exact find_filter_ne c.evictList k k' hkk

theorem LRU.Get_config {V : Type} [Inhabited V] (c : LRU V) (now : Nat) (k : String) :
    (c.Get now k).1.size = c.size ∧ (c.Get now k).1.ttl = c.ttl := by
  unfold LRU.Get
  cases c.item k with
  | none => exact ⟨rfl, rfl⟩
  | some ent => by_cases hnow : now > ent.ExpiresAt <;> simp [hnow]

theorem LRU.Get_mem {V : Type} [Inhabited V] (c : LRU V) (now : Nat) (k : String)
    (ent : Entry V) (h : ent ∈ (c.Get now k).1.evictList) : ent ∈ c.evictList := by
  unfold LRU.Get at h
  cases hk : c.item k with
  | none => simpa [hk] using h
  | some e0 =>
    by_cases hnow : now > e0.ExpiresAt
    · simpa [hk, hnow] using h
    · simp only [hk, hnow, if_false, List.mem_cons] at h
      rcases h with h | h
      · rw [h]; exact (c.item_mem k e0 hk).1
      · exact (List.mem_filter.mp h).1

theorem LRU.Get_hit {V : Type} [Inhabited V] (c : LRU V) (now : Nat) (k : String)
    (ent : Entry V) (h : c.item k = some ent) (hnow : now ≤ ent.ExpiresAt) :
    (c.Get now k).2 = (ent.Value, true) := by
  unfold LRU.Get
  simp [h, Nat.not_lt.mpr hnow]

theorem LRU.Get_miss {V : Type} [Inhabited V] (c : LRU V) (now : Nat) (k : String)
    (h : ∀ ent, c.item k = some ent → ent.ExpiresAt < now) :
    (c.Get now k).2.2 = false := by
  unfold LRU.Get
  cases hk : c.item k with
  | none => rfl
  | some ent => simp [h ent hk]

theorem LRU.Add_item_same {V : Type} (c : LRU V) (now : Nat) (k : String) (v : V)
    (hs : c.size = 0) : (c.Add now k v).1.item k = some ⟨k, v, now + c.ttl⟩ := by
  unfold LRU.Add
  cases c.item k with
  | none => simp [hs, LRU.item]
  | some ent => simp [LRU.item]

theorem LRU.Add_item_other {V : Type} (c : LRU V) (now : Nat) (k k' : String) (v : V)
    (hs : c.size = 0) (h : k' ≠ k) : (c.Add now k v).1.item k' = c.item k' := by
  have hne : k ≠ k' := fun h' => h h'.symm
  unfold LRU.Add
  cases c.item k with
  | none => simp [hs, LRU.item, hne]
  | some ent =>
    simp only [LRU.item, List.find?_cons, hne, decide_False]
    exact find_filter_ne c.evictList k k' h

theorem LRU.Add_config {V : Type} (c : LRU V) (now : Nat) (k : String) (v : V) :
    (c.Add now k v).1.size = c.size ∧ (c.Add now k v).1.ttl = c.ttl := by
  unfold LRU.Add
  cases c.item k with
  | none => by_cases h : 0 < c.size ∧ c.size < (c.evictList.length + 1) <;> simp [h]
  | some ent => exact ⟨rfl, rfl⟩

theorem LRU.Add_mem {V : Type} (c : LRU V) (now : Nat) (k : String) (v : V)
    (hs : c.size = 0) (ent : Entry V) (h : ent ∈ (c.Add now k v).1.evictList) :
    ent.Key = k ∧ ent.ExpiresAt = now + c.ttl ∧ ent.Value = v ∨ ent ∈ c.evictList ∧ ent.Key ≠ k := by
  unfold LRU.Add at h
  cases hk : c.item k with
  | none =>
    simp only [hk, hs, Nat.lt_irrefl, false_and, decide_False, if_false, List.mem_cons,
      Bool.false_eq_true] at h
    rcases h with h | h
    · left; rw [h]; exact ⟨rfl, rfl, rfl⟩
    · right
      refine ⟨h, fun hkey => ?_⟩
      have := List.find?_eq_none.mp hk ent h
      simp [hkey] at this
  | some e0 =>
    simp only [hk, List.mem_cons] at h
    rcases h with h | h
    · left; rw [h]; exact ⟨rfl, rfl, rfl⟩
    · right
      have := List.mem_filter.mp h
      exact ⟨this.1, by simpa using this.2⟩

theorem LRU.deleteExpired_item {V : Type} (c : LRU V) (now : Nat) (bucket : String → Bool)
    (k : String) (ent : Entry V) (h : c.item k = some ent) (hnow : now < ent.ExpiresAt) :
    (c.deleteExpired now bucket).item k = some ent := by
  unfold LRU.item LRU.deleteExpired at *
  apply find_filter_keep _ _ ent _ _ h
  simp [Nat.not_le.mpr hnow]

theorem LRU.deleteExpired_mem {V : Type} (c : LRU V) (now : Nat) (bucket : String → Bool)
    (ent : Entry V) (h : ent ∈ (c.deleteExpired now bucket).evictList) : ent ∈ c.evictList :=
  (List.mem_filter.mp h).1

/-! ## Facts about the cached resolver -/

section CachedResolver

variable {R : Type}

theorem cache_withCache_same (d : Dim) (p : PayloadFieldsRepositoryFromCache R) (c : LRU (Row d)) :
    (p.withCache d c).cache d = c := by
  cases d <;> rfl

theorem cache_withCache_other (d d' : Dim) (h : d' ≠ d) (p : PayloadFieldsRepositoryFromCache R)
    (c : LRU (Row d')) : (p.withCache d' c).cache d = p.cache d := by
  cases d <;> cases d' <;> first | rfl | exact absurd rfl h

theorem Get_unfold [PayloadFieldsRepository R] (d : Dim) (p : PayloadFieldsRepositoryFromCache R) (tGet tAdd : Nat)
    (name : String) :
    p.Get d tGet tAdd name =
      if ((p.cache d).Get tGet name).2.2 = true then
        (((p.cache d).Get tGet name).2.1, p.withCache d ((p.cache d).Get tGet name).1)
      else
        ((PayloadFieldsRepository.Get d p.PayloadFields name).1,
         { p.withCache d
            ((((p.cache d).Get tGet name).1.Add tAdd name
              (PayloadFieldsRepository.Get d p.PayloadFields name).1).1) with
           PayloadFields := (PayloadFieldsRepository.Get d p.PayloadFields name).2 }) := by
  cases d <;> rfl

theorem configured_new (inner : R) (p0 : PayloadFieldsRepositoryFromCache R)
    (h0 : newPayloadFieldsRepositoryFromCache inner = Except.ok p0) : Configured p0 := by
  simp only [newPayloadFieldsRepositoryFromCache, NewLRU] at h0
  cases h0
  intro d
  cases d <;> exact ⟨rfl, by simp [PayloadFieldsRepositoryFromCache.cache, Hour]⟩

theorem lookup_cache [PayloadFieldsRepository R] (d d' : Dim)
    (p : PayloadFieldsRepositoryFromCache R) (tGet tAdd : Nat) (n : String) :
    ((p.Get d' tGet tAdd n).2).cache d =
      if d' = d then
        if ((p.cache d).Get tGet n).2.2 = true then ((p.cache d).Get tGet n).1
        else (((p.cache d).Get tGet n).1.Add tAdd n
                (PayloadFieldsRepository.Get d p.PayloadFields n).1).1
      else p.cache d := by
  by_cases hd : d' = d
  · subst hd
    by_cases hit : ((p.cache d').Get tGet n).2.2 = true
    · rw [Get_unfold, if_pos hit, if_pos rfl, if_pos hit]
      exact cache_withCache_same _ _ _
    · rw [Get_unfold, if_neg hit, if_pos rfl, if_neg hit]
      cases d' <;> rfl
  · by_cases hit : ((p.cache d').Get tGet n).2.2 = true
    · rw [Get_unfold, if_pos hit, if_neg hd]
      exact cache_withCache_other _ _ hd _ _
    · rw [Get_unfold, if_neg hit, if_neg hd]
      cases d <;> cases d' <;> first | rfl | exact absurd rfl hd

theorem configured_apply [PayloadFieldsRepository R] (a : Activity R) (p : PayloadFieldsRepositoryFromCache R)
    (h : Configured p) : Configured (a.apply p) := by
  intro d
  cases a with
  | lookup d' tGet tAdd n =>
    simp only [Activity.apply, lookup_cache]
    by_cases hd : d' = d
    · rw [if_pos hd]
      by_cases hit : ((p.cache d).Get tGet n).2.2 = true
      · rw [if_pos hit]
        rw [(LRU.Get_config _ _ _).1, (LRU.Get_config _ _ _).2]
        exact h d
      · rw [if_neg hit]
        rw [(LRU.Add_config _ _ _ _).1, (LRU.Add_config _ _ _ _).2,
          (LRU.Get_config _ _ _).1, (LRU.Get_config _ _ _).2]
        exact h d
    · rw [if_neg hd]
      exact h d
  | deleteExpired d' now bucket =>
    simp only [Activity.apply]
    by_cases hd : d' = d
    · subst hd
      rw [cache_withCache_same]
      exact h d'
    · rw [cache_withCache_other _ _ hd]
      exact h d
  | backing f =>
    have : (Activity.apply (Activity.backing f) p).cache d = p.cache d := by cases d <;> rfl
    rw [this]
    exact h d

theorem configured_run [PayloadFieldsRepository R] (acts : List (Activity R)) :
    ∀ p : PayloadFieldsRepositoryFromCache R, Configured p → Configured (run acts p) := by
  induction acts with
  | nil => intro p h; exact h
  | cons a rest ih => intro p h; exact ih _ (configured_apply a p h)

/-- While every clock reading is before `e`, an entry expiring at `e` stays in place. -/
theorem entry_kept_apply [PayloadFieldsRepository R] (d : Dim) (name : String) (ent : Entry (Row d)) (a : Activity R)
    (p : PayloadFieldsRepositoryFromCache R) (hcfg : Configured p)
    (hent : (p.cache d).item name = some ent) (ha : a.before ent.ExpiresAt = true) :
    ((a.apply p).cache d).item name = some ent := by
  cases a with
  | lookup d' tGet tAdd n =>
    simp only [Activity.before, decide_eq_true_eq] at ha
    simp only [Activity.apply, lookup_cache]
    by_cases hd : d' = d
    · rw [if_pos hd]
      by_cases hn : n = name
      · subst hn
        have hhit := LRU.Get_hit (p.cache d) tGet n ent hent (Nat.le_of_lt ha)
        rw [if_pos (by rw [hhit]), LRU.Get_item]; exact hent
      · by_cases hit : ((p.cache d).Get tGet n).2.2 = true
        · rw [if_pos hit]
          rw [LRU.Get_item]; exact hent
        · rw [if_neg hit]
          rw [LRU.Add_item_other _ _ _ _ _ (by rw [(LRU.Get_config _ _ _).1]; exact (hcfg d).1)
            (fun h => hn h.symm), LRU.Get_item]
          exact hent
    · rw [if_neg hd]
      exact hent
  | deleteExpired d' now bucket =>
    simp only [Activity.before, decide_eq_true_eq] at ha
    simp only [Activity.apply]
    by_cases hd : d' = d
    · subst hd
      rw [cache_withCache_same]
      exact LRU.deleteExpired_item _ _ _ _ _ hent ha
    · rw [cache_withCache_other _ _ hd]
      exact hent
  | backing f =>
    have : (Activity.apply (Activity.backing f) p).cache d = p.cache d := by cases d <;> rfl
    rw [this]
    exact hent

theorem entry_kept_run [PayloadFieldsRepository R] (d : Dim) (name : String) (ent : Entry (Row d)) (acts : List (Activity R)) :
    ∀ p : PayloadFieldsRepositoryFromCache R, Configured p →
      (p.cache d).item name = some ent → (∀ a ∈ acts, a.before ent.ExpiresAt = true) →
      ((run acts p).cache d).item name = some ent := by
  induction acts with
  | nil => intro p _ h _; exact h
  | cons a rest ih =>
    intro p hcfg hent hb
    exact ih _ (configured_apply a p hcfg)
      (entry_kept_apply d name ent a p hcfg hent (hb a (List.mem_cons_self _ _)))
      (fun b hb' => hb b (List.mem_cons_of_mem _ hb'))

theorem expiry_kept_apply [PayloadFieldsRepository R] (d : Dim) (name : String) (e : Nat) (a : Activity R)
    (p : PayloadFieldsRepositoryFromCache R) (hcfg : Configured p)
    (hinv : ExpiresOnlyAt d name e p) (hhit : hitsOnly d name [a] p = true) :
    ExpiresOnlyAt d name e (a.apply p) := by
  intro ent hmem hkey
  cases a with
  | lookup d' tGet tAdd n =>
    simp only [Activity.apply, lookup_cache] at hmem
    by_cases hd : d' = d
    · rw [if_pos hd] at hmem
      by_cases hit : ((p.cache d).Get tGet n).2.2 = true
      · rw [if_pos hit] at hmem
        exact hinv ent (LRU.Get_mem _ _ _ _ hmem) hkey
      · rw [if_neg hit] at hmem
        have hn : n ≠ name := by
          intro hn
          subst hn
          simp [hitsOnly, hd] at hhit
          exact hit hhit
        rcases LRU.Add_mem _ _ _ _ (by rw [(LRU.Get_config _ _ _).1]; exact (hcfg d).1) ent hmem
          with h | h
        · exact absurd (h.1.symm.trans hkey) hn
        · exact hinv ent (LRU.Get_mem _ _ _ _ h.1) hkey
    · rw [if_neg hd] at hmem
      exact hinv ent hmem hkey
  | deleteExpired d' now bucket =>
    simp only [Activity.apply] at hmem
    by_cases hd : d' = d
    · subst hd
      rw [cache_withCache_same] at hmem
      exact hinv ent (LRU.deleteExpired_mem _ _ _ _ hmem) hkey
    · rw [cache_withCache_other _ _ hd] at hmem
      exact hinv ent hmem hkey
  | backing f =>
    have : (Activity.apply (Activity.backing f) p).cache d = p.cache d := by cases d <;> rfl
    rw [this] at hmem
    exact hinv ent hmem hkey

theorem expiry_kept_run [PayloadFieldsRepository R] (d : Dim) (name : String) (e : Nat) (acts : List (Activity R)) :
    ∀ p : PayloadFieldsRepositoryFromCache R, Configured p → ExpiresOnlyAt d name e p →
      hitsOnly d name acts p = true → ExpiresOnlyAt d name e (run acts p) := by
  induction acts with
  | nil => intro p _ h _; exact h
  | cons a rest ih =>
    intro p hcfg hinv hh
    have hh' : hitsOnly d name [a] p = true ∧ hitsOnly d name rest (a.apply p) = true := by
      simp only [hitsOnly, Bool.and_eq_true, Bool.and_true] at hh ⊢
      exact hh
    exact ih _ (configured_apply a p hcfg) (expiry_kept_apply d name e a p hcfg hinv hh'.1) hh'.2

/-- A lookup that finds no live entry: one call to the wrapped resolver, whose answer is
returned and stored with a fresh expiry. -/
theorem lookup_miss [PayloadFieldsRepository R] (d : Dim) (p : PayloadFieldsRepositoryFromCache R) (hcfg : Configured p)
    (tGet tAdd : Nat) (name : String)
    (hmiss : ∀ ent, (p.cache d).item name = some ent → ent.ExpiresAt < tGet) :
    (p.Get d tGet tAdd name).1 = (PayloadFieldsRepository.Get d p.PayloadFields name).1 ∧
    (p.Get d tGet tAdd name).2.PayloadFields =
      (PayloadFieldsRepository.Get d p.PayloadFields name).2 ∧
    ((p.Get d tGet tAdd name).2.cache d).item name =
      some ⟨name, (PayloadFieldsRepository.Get d p.PayloadFields name).1, tAdd + 12 * Hour⟩ ∧
    ExpiresOnlyAt d name (tAdd + 12 * Hour) (p.Get d tGet tAdd name).2 := by
  have hm := LRU.Get_miss (p.cache d) tGet name hmiss
  have hsz : ((p.cache d).Get tGet name).1.size = 0 := by
    rw [(LRU.Get_config _ _ _).1]; exact (hcfg d).1
  have httl : ((p.cache d).Get tGet name).1.ttl = 12 * Hour := by
    rw [(LRU.Get_config _ _ _).2]; exact (hcfg d).2
  have hm' : ¬ (((p.cache d).Get tGet name).2.2 = true) := by simp [hm]
  have hc := lookup_cache d d p tGet tAdd name
  rw [if_pos rfl, if_neg hm'] at hc
  refine ⟨?_, ?_, ?_, ?_⟩
  · rw [Get_unfold, if_neg hm']
  · rw [Get_unfold, if_neg hm']
  · rw [hc, LRU.Add_item_same _ _ _ _ hsz, httl]
  · intro ent hmem hkey
    rw [hc] at hmem
    rcases LRU.Add_mem _ _ _ _ hsz ent hmem with h | h
    · rw [h.2.1, httl]
    · exact absurd hkey h.2

/-- A lookup that finds a live entry: no call to the wrapped resolver. -/
theorem lookup_hit [PayloadFieldsRepository R] (d : Dim) (p : PayloadFieldsRepositoryFromCache R) (tGet tAdd : Nat)
    (name : String) (ent : Entry (Row d)) (hent : (p.cache d).item name = some ent)
    (hlive : tGet ≤ ent.ExpiresAt) :
    (p.Get d tGet tAdd name).1 = ent.Value ∧
    (p.Get d tGet tAdd name).2.PayloadFields = p.PayloadFields := by
  have hh := LRU.Get_hit (p.cache d) tGet name ent hent hlive
  rw [Get_unfold, if_pos (by rw [hh])]
  exact ⟨by rw [hh], by cases d <;> rfl⟩

end CachedResolver

/-! ## Facts about the store -/

theorem orderByIdLimit1_mem {α : Type} (id : α → Nat) :
    ∀ (l : List α) (m : α), orderByIdLimit1 id l = some m → m ∈ l
  | [], m, h => by simp [orderByIdLimit1] at h
  | r :: rs, m, h => by
    unfold orderByIdLimit1 at h
    cases hrs : orderByIdLimit1 id rs with
    | none =>
      rw [hrs] at h
      cases h
      exact List.mem_cons_self _ _
    | some m' =>
      rw [hrs] at h
      by_cases hle : id r ≤ id m'
      · simp only [hle, if_true, Option.some.injEq] at h
        rw [← h]; exact List.mem_cons_self _ _
      · simp only [hle, if_false, Option.some.injEq] at h
        rw [← h]; exact List.mem_cons_of_mem _ (orderByIdLimit1_mem id rs m' hrs)

theorem orderByIdLimit1_none {α : Type} (id : α → Nat) (l : List α)
    (h : orderByIdLimit1 id l = none) : l = [] := by
  cases l with
  | nil => rfl
  | cons r rs =>
    unfold orderByIdLimit1 at h
    cases hrs : orderByIdLimit1 id rs with
    | none => rw [hrs] at h; cases h
    | some m' =>
      rw [hrs] at h
      by_cases hle : id r ≤ id m' <;> simp [hle] at h

theorem WhereNameFirst_miss (db : GormDB) (d : Dim) (name : String) (dest : Row d)
    (h : ∀ r ∈ (db.table d).rows, r.Name ≠ name) : db.WhereNameFirst d name dest = dest := by
  unfold GormDB.WhereNameFirst
  have hnil : (db.table d).rows.filter (fun r => decide (r.Name = name)) = [] := by
    rw [List.filter_eq_nil_iff]
    intro r hr
    simpa using h r hr
  rw [hnil]
  rfl

theorem WhereNameFirst_found (db : GormDB) (d : Dim) (name : String) (dest : Row d)
    (h : ∃ r ∈ (db.table d).rows, r.Name = name) :
    db.WhereNameFirst d name dest ∈ (db.table d).rows ∧
      (db.WhereNameFirst d name dest).Name = name := by
  unfold GormDB.WhereNameFirst
  cases hf : orderByIdLimit1 (fun r => r.Id)
      ((db.table d).rows.filter (fun r => decide (r.Name = name))) with
  | none =>
    obtain ⟨r, hr, hn⟩ := h
    have hnil := orderByIdLimit1_none _ _ hf
    have : r ∈ (db.table d).rows.filter (fun r => decide (r.Name = name)) :=
      List.mem_filter.mpr ⟨hr, by simpa using hn⟩
    rw [hnil] at this
    cases this
  | some m =>
    have hm := List.mem_filter.mp (orderByIdLimit1_mem _ _ m hf)
    exact ⟨hm.1, by simpa using hm.2⟩

theorem Get_counted {R : Type} [PayloadFieldsRepository R] (d : Dim) (c : Counted R)
    (name : String) :
    PayloadFieldsRepository.Get d c name =
      ((PayloadFieldsRepository.Get d c.inner name).1,
       ⟨(PayloadFieldsRepository.Get d c.inner name).2, c.calls + 1⟩) := by
  cases d <;> rfl

theorem forRun_cons {H : Type} (onMessage : H → KafkaMessage → H) (s : LoopState H)
    (i : Iteration) (rest : List Iteration) :
    forRun onMessage s (i :: rest) =
      if s.run = true then forRun onMessage (loopBody onMessage s i) rest else s := rfl

theorem forRun_stopped {H : Type} (onMessage : H → KafkaMessage → H) (s : LoopState H)
    (env : List Iteration) (h : s.run = false) : forRun onMessage s env = s := by
  cases env with
  | nil => rfl
  | cons i rest => simp [forRun, h]

theorem loopBody_closes {H : Type} (onMessage : H → KafkaMessage → H) (s : LoopState H)
    (i : Iteration) : (loopBody onMessage s i).closes = s.closes := by
  unfold loopBody
  cases i.sig with
  | some sg => rfl
  | none =>
    cases i.event with
    | none => rfl
    | some e => cases e <;> rfl

theorem forRun_closes {H : Type} (onMessage : H → KafkaMessage → H) (env : List Iteration) :
    ∀ s : LoopState H, (forRun onMessage s env).closes = s.closes := by
  induction env with
  | nil => intro s; rfl
  | cons i rest ih =>
    intro s
    rw [forRun_cons]
    by_cases h : s.run = true
    · rw [if_pos h, ih, loopBody_closes]
    · rw [if_neg h]

theorem loopBody_quiet {H : Type} (onMessage : H → KafkaMessage → H) (s : LoopState H)
    (i : Iteration) (hs : i.sig = none) :
    (loopBody onMessage s i).run = s.run ∧ (loopBody onMessage s i).polls = s.polls + 1 := by
  unfold loopBody
  rw [hs]
  cases i.event with
  | none => exact ⟨rfl, rfl⟩
  | some e => cases e <;> exact ⟨rfl, rfl⟩

theorem forRun_quiet {H : Type} (onMessage : H → KafkaMessage → H) (env : List Iteration) :
    ∀ s : LoopState H, s.run = true → (∀ i ∈ env, i.sig = none) →
      (forRun onMessage s env).run = true ∧ (forRun onMessage s env).polls = s.polls + env.length := by
  induction env with
  | nil => intro s h _; exact ⟨h, rfl⟩
  | cons i rest ih =>
    intro s h hq
    have hi := loopBody_quiet onMessage s i (hq i (List.mem_cons_self _ _))
    rw [forRun_cons, if_pos h]
    have := ih (loopBody onMessage s i) (hi.1.trans h) (fun j hj => hq j (List.mem_cons_of_mem _ hj))
    refine ⟨this.1, ?_⟩
    rw [this.2, hi.2, List.length_cons]
    omega

theorem forRun_append {H : Type} (onMessage : H → KafkaMessage → H) (pre : List Iteration) :
    ∀ (s : LoopState H) (post : List Iteration),
      forRun onMessage s (pre ++ post) = forRun onMessage (forRun onMessage s pre) post := by
  induction pre with
  | nil => intro s post; rfl
  | cons i rest ih =>
    intro s post
    rw [List.cons_append, forRun_cons, forRun_cons]
    by_cases h : s.run = true
    · rw [if_pos h, if_pos h, ih]
    · rw [if_neg h, if_neg h]
      have h' : s.run = false := by simpa using h
      exact (forRun_stopped onMessage s post h').symm

/-! ## Facts about the payload writer -/

theorem mem_columnsToUpdate (p : Payloads) (c : String) :
    c ∈ UpsertPayloadByRequestId.columnsToUpdate p ↔
      c = "request_id" ∨ (c = "account" ∧ p.Account ≠ "") ∨ (c = "org_id" ∧ p.OrgId ≠ "") ∨
      (c = "inventory_id" ∧ p.InventoryId ≠ "") ∨ (c = "system_id" ∧ p.SystemId ≠ "") := by
  unfold UpsertPayloadByRequestId.columnsToUpdate
  by_cases h1 : p.Account = "" <;> by_cases h2 : p.OrgId = "" <;>
    by_cases h3 : p.InventoryId = "" <;> by_cases h4 : p.SystemId = "" <;>
    simp [h1, h2, h3, h4]

/-- The stored row `r` after an upsert of `p` that conflicts with it. -/
theorem assignColumns_columnsToUpdate (p cand r : Payloads)
    (hc : cand = p ∨ ∃ i, cand = { p with Id := i }) (hr : r.RequestId = p.RequestId) :
    assignColumns (UpsertPayloadByRequestId.columnsToUpdate p) cand r =
      { Id := r.Id
        RequestId := r.RequestId
        Account := if p.Account = "" then r.Account else p.Account
        OrgId := if p.OrgId = "" then r.OrgId else p.OrgId
        InventoryId := if p.InventoryId = "" then r.InventoryId else p.InventoryId
        SystemId := if p.SystemId = "" then r.SystemId else p.SystemId } := by
  have hreq : cand.RequestId = p.RequestId := by
    rcases hc with h | ⟨i, h⟩ <;> rw [h]
  have hacc : cand.Account = p.Account := by
    rcases hc with h | ⟨i, h⟩ <;> rw [h]
  have horg : cand.OrgId = p.OrgId := by
    rcases hc with h | ⟨i, h⟩ <;> rw [h]
  have hinv : cand.InventoryId = p.InventoryId := by
    rcases hc with h | ⟨i, h⟩ <;> rw [h]
  have hsys : cand.SystemId = p.SystemId := by
    rcases hc with h | ⟨i, h⟩ <;> rw [h]
  unfold assignColumns
  simp only [mem_columnsToUpdate, hreq, hacc, horg, hinv, hsys, hr]
  by_cases h1 : p.Account = "" <;> by_cases h2 : p.OrgId = "" <;>
    by_cases h3 : p.InventoryId = "" <;> by_cases h4 : p.SystemId = "" <;>
    simp [h1, h2, h3, h4]

theorem candidate_shape (seq : Nat) (p : Payloads) :
    (if p.Id = 0 then { p with Id := seq + 1 } else p) = p ∨
      ∃ i, (if p.Id = 0 then { p with Id := seq + 1 } else p) = { p with Id := i } := by
  by_cases h : p.Id = 0
  · right; exact ⟨seq + 1, by rw [if_pos h]⟩
  · left; rw [if_neg h]

/-- An upsert that meets a stored row of the same `request_id` merges into it. -/
theorem upsert_conflict (db : GormDB) (request_id : String) (p : Payloads)
    (h : ∃ old ∈ db.payloads, old.RequestId = p.RequestId) :
    (UpsertPayloadByRequestId db request_id p).1.Error = none ∧
    (UpsertPayloadByRequestId db request_id p).1.DB.payloads =
      db.payloads.map (fun r =>
        if r.RequestId = p.RequestId then
          { Id := r.Id
            RequestId := r.RequestId
            Account := if p.Account = "" then r.Account else p.Account
            OrgId := if p.OrgId = "" then r.OrgId else p.OrgId
            InventoryId := if p.InventoryId = "" then r.InventoryId else p.InventoryId
            SystemId := if p.SystemId = "" then r.SystemId else p.SystemId }
        else r) := by
  unfold UpsertPayloadByRequestId GormDB.CreatePayloadOnConflict
  cases hf : db.payloads.find? (fun r => decide (r.RequestId = p.RequestId)) with
  | none =>
    obtain ⟨old, hold, hreq⟩ := h
    have := List.find?_eq_none.mp hf old hold
    simp [hreq] at this
  | some old =>
    refine ⟨rfl, ?_⟩
    show List.map _ db.payloads = List.map _ db.payloads
    apply List.map_congr_left
    intro r _
    by_cases hr : r.RequestId = p.RequestId
    · rw [if_pos hr, if_pos hr]
      exact assignColumns_columnsToUpdate p _ r (candidate_shape db.payloadsSeq p) hr
    · rw [if_neg hr, if_neg hr]

/-- After an upsert of `p` that reported no error, a row with the `request_id` of `p` is
stored, and every such row carries the non-empty `Account` of `p`. -/
theorem upsert_sets_account (db : GormDB) (request_id : String) (p : Payloads)
    (hacc : p.Account ≠ "") (herr : (UpsertPayloadByRequestId db request_id p).1.Error = none) :
    (∃ r ∈ (UpsertPayloadByRequestId db request_id p).1.DB.payloads,
      r.RequestId = p.RequestId) ∧
    ∀ r ∈ (UpsertPayloadByRequestId db request_id p).1.DB.payloads,
      r.RequestId = p.RequestId → r.Account = p.Account := by
  by_cases h : ∃ old ∈ db.payloads, old.RequestId = p.RequestId
  · rw [(upsert_conflict db request_id p h).2]
    obtain ⟨old, hold, hreq⟩ := h
    constructor
    · refine ⟨_, List.mem_map.mpr ⟨old, hold, rfl⟩, ?_⟩
      rw [if_pos hreq]
      exact hreq
    · intro r hr hrr
      obtain ⟨r0, hr0, hmap⟩ := List.mem_map.mp hr
      by_cases h0 : r0.RequestId = p.RequestId
      · rw [if_pos h0] at hmap
        rw [← hmap]
        simp [hacc]
      · rw [if_neg h0] at hmap
        rw [hmap] at h0
        exact absurd hrr h0
  · have hnone : db.payloads.find? (fun r => decide (r.RequestId = p.RequestId)) = none := by
      rw [List.find?_eq_none]
      intro x hx hdec
      exact h ⟨x, hx, by simpa using hdec⟩
    unfold UpsertPayloadByRequestId GormDB.CreatePayloadOnConflict at herr ⊢
    rw [hnone] at herr ⊢
    by_cases hany : (db.payloads.any (fun r =>
        decide (r.Id = (if p.Id = 0 then { p with Id := db.payloadsSeq + 1 } else p).Id))) = true
    · simp [hany] at herr
    · simp only [hany, Bool.false_eq_true, if_false]
      have hcr : (if p.Id = 0 then { p with Id := db.payloadsSeq + 1 } else p).RequestId
          = p.RequestId := by
        by_cases hp : p.Id = 0 <;> simp [hp]
      have hca : (if p.Id = 0 then { p with Id := db.payloadsSeq + 1 } else p).Account
          = p.Account := by
        by_cases hp : p.Id = 0 <;> simp [hp]
      constructor
      · exact ⟨_, List.mem_append_right _ (List.mem_singleton.mpr rfl), hcr⟩
      · intro r hr hrr
        rcases List.mem_append.mp hr with hr | hr
        · exact absurd ⟨r, hr, hrr⟩ h
        · rw [List.mem_singleton.mp hr]
          exact hca

theorem saveSource_payloadStatuses (db : GormDB) (src : Sources) :
    (db.saveSource src).1.payloadStatuses = db.payloadStatuses := by
  unfold GormDB.saveSource
  simp only
  split <;> split <;> rfl

theorem saveSource_keeps_set_id (db : GormDB) (src : Sources) (h : src.Id ≠ 0) :
    (db.saveSource src).2 = src := by
  unfold GormDB.saveSource
  simp only [if_neg h]
  split <;> rfl

theorem saveAssociations_set (db : GormDB) (ps : PayloadStatuses) (h : ps.Source ≠ default) :
    (db.saveAssociations ps).2.SourceId = (db.saveAssociations ps).2.Source.Id ∧
    (ps.Source.Id ≠ 0 → (db.saveAssociations ps).2.Source = ps.Source) := by
  unfold GormDB.saveAssociations
  rw [if_pos h]
  exact ⟨rfl, fun hid => saveSource_keeps_set_id db ps.Source hid⟩

theorem saveAssociations_payloadStatuses (db : GormDB) (ps : PayloadStatuses) :
    (db.saveAssociations ps).1.payloadStatuses = db.payloadStatuses := by
  unfold GormDB.saveAssociations
  by_cases h : ps.Source ≠ default
  · rw [if_pos h]
    exact saveSource_payloadStatuses db ps.Source
  · rw [if_neg h]

theorem CreatePayloadStatus_statement (db : GormDB) (omitted : List String)
    (ps : PayloadStatuses) :
    (db.CreatePayloadStatus omitted ps).2.1 = (db.saveAssociations ps).2 ∧
    (db.CreatePayloadStatus omitted ps).2.2 = insertStatement omitted (db.saveAssociations ps).2 ∧
    ((db.CreatePayloadStatus omitted ps).1.Error = none →
      (db.CreatePayloadStatus omitted ps).1.DB.payloadStatuses =
        db.payloadStatuses ++ [(insertStatement omitted (db.saveAssociations ps).2).row]) := by
  unfold GormDB.CreatePayloadStatus
  simp only
  by_cases href : (db.saveAssociations ps).1.referencesHold
      (insertStatement omitted (db.saveAssociations ps).2).row = true
  · rw [if_pos href]
    refine ⟨rfl, rfl, fun _ => ?_⟩
    show (db.saveAssociations ps).1.payloadStatuses ++ _ = _
    rw [saveAssociations_payloadStatuses]
  · rw [if_neg href]
    exact ⟨rfl, rfl, fun h => by cases h⟩

theorem insertStatement_columns (omitted : List String) (ps : PayloadStatuses) :
    (insertStatement omitted ps).columns = payloadStatusColumns.filter (fun c => decide (c ∉ omitted)) :=
  rfl

/-! ## The cached resolver: first call, hits, expiry -/

/-- C1: take a cached resolver built by the factory and run through any history, and a
name with no live entry in the cache of dimension `d` at clock reading `tGet`. The call
for that name (`GetStatus`, `GetService` or `GetSource`, by `d`) returns the wrapped
resolver's answer, reaches the wrapped resolver exactly once and stores the answer under
the name with expiry `tAdd + 12h`. After any further activity before that expiry
(lookups of any name, background expiry passes, arbitrary changes of the wrapped
resolver), a call for the same name before the expiry returns the first call's value and
leaves the wrapped resolver, in particular its call count, untouched. -/
theorem cached_first_call_once_then_served_from_cache {R : Type} [PayloadFieldsRepository R]
    (d : Dim) (inner : Counted R) (p0 : PayloadFieldsRepositoryFromCache (Counted R))
    (h0 : newPayloadFieldsRepositoryFromCache inner = Except.ok p0)
    (pre : List (Activity (Counted R))) (name : String) (tGet tAdd : Nat)
    (hmiss : ∀ ent, ((run pre p0).cache d).item name = some ent → ent.ExpiresAt < tGet) :
    ((run pre p0).Get d tGet tAdd name).1
        = (PayloadFieldsRepository.Get d (run pre p0).PayloadFields.inner name).1 ∧
    ((run pre p0).Get d tGet tAdd name).2.PayloadFields.calls
        = (run pre p0).PayloadFields.calls + 1 ∧
    (((run pre p0).Get d tGet tAdd name).2.cache d).item name
        = some ⟨name, ((run pre p0).Get d tGet tAdd name).1, tAdd + 12 * Hour⟩ ∧
    ∀ (acts : List (Activity (Counted R))) (tGet' tAdd' : Nat),
      (∀ a ∈ acts, a.before (tAdd + 12 * Hour) = true) → tGet' < tAdd + 12 * Hour →
      ((run acts ((run pre p0).Get d tGet tAdd name).2).Get d tGet' tAdd' name).1
          = ((run pre p0).Get d tGet tAdd name).1 ∧
      ((run acts ((run pre p0).Get d tGet tAdd name).2).Get d tGet' tAdd' name).2.PayloadFields
          = (run acts ((run pre p0).Get d tGet tAdd name).2).PayloadFields ∧
      ((run acts ((run pre p0).Get d tGet tAdd name).2).Get d tGet' tAdd' name).2.PayloadFields.calls
          = (run acts ((run pre p0).Get d tGet tAdd name).2).PayloadFields.calls := by
  have hcfg : Configured (run pre p0) := configured_run pre p0 (configured_new inner p0 h0)
  have hm := lookup_miss d (run pre p0) hcfg tGet tAdd name hmiss
  have hcfg1 : Configured ((run pre p0).Get d tGet tAdd name).2 :=
    configured_apply (Activity.lookup d tGet tAdd name) (run pre p0) hcfg
  rw [Get_counted] at hm
  refine ⟨hm.1, ?_, ?_, ?_⟩
  · rw [hm.2.1]
  · rw [hm.2.2.1, hm.1]
  · intro acts tGet' tAdd' hbefore hlive
    have hkept := entry_kept_run d name
      ⟨name, (PayloadFieldsRepository.Get d (run pre p0).PayloadFields.inner name).1,
        tAdd + 12 * Hour⟩ acts _ hcfg1 hm.2.2.1 hbefore
    have hh := lookup_hit d (run acts ((run pre p0).Get d tGet tAdd name).2) tGet' tAdd' name _
      hkept (Nat.le_of_lt hlive)
    refine ⟨?_, hh.2, ?_⟩
    · rw [hh.1, hm.1]
    · rw [hh.2]

/-- C1, witness: against an empty store the first `GetStatus "install"` at clock 5/6
misses; after the store has gained the row `install`, a second call at clock 9 still
returns the zero-value row and the call count stays at one. -/
theorem cached_first_call_once_then_served_from_cache_witness :
    (∀ ent, ((run [] (PayloadFieldsRepositoryFromCache.mk
        (Counted.mk (PayloadFieldsRepositoryFromDB.mk emptyDB) 0)
        ⟨0, 12 * Hour, []⟩ ⟨0, 12 * Hour, []⟩ ⟨0, 12 * Hour, []⟩)).cache Dim.status).item "install"
          = some ent → ent.ExpiresAt < 5) ∧
    ((run [Activity.backing (fun c => ⟨⟨receivedDB⟩, c.calls⟩)]
        ((run [] (PayloadFieldsRepositoryFromCache.mk
          (Counted.mk (PayloadFieldsRepositoryFromDB.mk emptyDB) 0)
          ⟨0, 12 * Hour, []⟩ ⟨0, 12 * Hour, []⟩ ⟨0, 12 * Hour, []⟩)).Get
            Dim.status 5 6 "install").2).Get Dim.status 9 10 "install").1
      = ((run [] (PayloadFieldsRepositoryFromCache.mk
          (Counted.mk (PayloadFieldsRepositoryFromDB.mk emptyDB) 0)
          ⟨0, 12 * Hour, []⟩ ⟨0, 12 * Hour, []⟩ ⟨0, 12 * Hour, []⟩)).Get
            Dim.status 5 6 "install").1 :=
  ⟨fun ent h => by simp [run, PayloadFieldsRepositoryFromCache.cache, LRU.item] at h,
   ((cached_first_call_once_then_served_from_cache Dim.status
      (Counted.mk (PayloadFieldsRepositoryFromDB.mk emptyDB) 0) _ rfl [] "install" 5 6
      (fun ent h => by simp [run, PayloadFieldsRepositoryFromCache.cache, LRU.item] at h)).2.2.2
      [Activity.backing (fun c => ⟨⟨receivedDB⟩, c.calls⟩)] 9 10
      (fun a ha => by
        rw [List.mem_singleton] at ha
        rw [ha]; rfl)
      (by simp [Hour])).1⟩

/-- C2: take a cached resolver built by the factory and run through any history, and a
name cached in dimension `d` at clock reading `tAdd` by a call that found no live entry.
Whatever happens next, as long as every lookup of that name in between is a hit (other
names, background expiry passes and changes of the wrapped resolver are free), the entry
under the name keeps the expiry `tAdd + 12h`, and a call for the name at a clock reading
later than `tAdd + 12h` reaches the wrapped resolver exactly once, returns its answer of
that moment and stores it again, expiring twelve hours after the new insertion. -/
theorem cached_entry_expires_twelve_hours_after_insertion {R : Type}
    [PayloadFieldsRepository R]
    (d : Dim) (inner : Counted R) (p0 : PayloadFieldsRepositoryFromCache (Counted R))
    (h0 : newPayloadFieldsRepositoryFromCache inner = Except.ok p0)
    (pre : List (Activity (Counted R))) (name : String) (tGet tAdd : Nat)
    (hmiss : ∀ ent, ((run pre p0).cache d).item name = some ent → ent.ExpiresAt < tGet)
    (acts : List (Activity (Counted R)))
    (hhits : hitsOnly d name acts ((run pre p0).Get d tGet tAdd name).2 = true)
    (tGet' tAdd' : Nat) (hlate : tAdd + 12 * Hour < tGet') :
    (∀ ent, ((run acts ((run pre p0).Get d tGet tAdd name).2).cache d).item name = some ent →
      ent.ExpiresAt = tAdd + 12 * Hour) ∧
    ((run acts ((run pre p0).Get d tGet tAdd name).2).Get d tGet' tAdd' name).1
        = (PayloadFieldsRepository.Get d
            (run acts ((run pre p0).Get d tGet tAdd name).2).PayloadFields.inner name).1 ∧
    ((run acts ((run pre p0).Get d tGet tAdd name).2).Get d tGet' tAdd' name).2.PayloadFields.calls
        = (run acts ((run pre p0).Get d tGet tAdd name).2).PayloadFields.calls + 1 ∧
    (((run acts ((run pre p0).Get d tGet tAdd name).2).Get d tGet' tAdd' name).2.cache d).item name
        = some ⟨name,
            ((run acts ((run pre p0).Get d tGet tAdd name).2).Get d tGet' tAdd' name).1,
            tAdd' + 12 * Hour⟩ := by
  have hcfg : Configured (run pre p0) := configured_run pre p0 (configured_new inner p0 h0)
  have hm := lookup_miss d (run pre p0) hcfg tGet tAdd name hmiss
  have hcfg1 : Configured ((run pre p0).Get d tGet tAdd name).2 :=
    configured_apply (Activity.lookup d tGet tAdd name) (run pre p0) hcfg
  have hinv := expiry_kept_run d name (tAdd + 12 * Hour) acts _ hcfg1 hm.2.2.2 hhits
  have hexp : ∀ ent,
      ((run acts ((run pre p0).Get d tGet tAdd name).2).cache d).item name = some ent →
        ent.ExpiresAt = tAdd + 12 * Hour := by
    intro ent hent
    have := LRU.item_mem _ _ _ hent
    exact hinv ent this.1 this.2
  have hcfg2 := configured_run acts _ hcfg1
  have hm2 := lookup_miss d (run acts ((run pre p0).Get d tGet tAdd name).2) hcfg2 tGet' tAdd'
    name (fun ent hent => by rw [hexp ent hent]; exact hlate)
  rw [Get_counted] at hm2
  refine ⟨hexp, hm2.1, ?_, ?_⟩
  · rw [hm2.2.1]
  · rw [hm2.2.2.1, hm2.1]

/-- C2, witness: `install` is cached at clock 6 against an empty store and read twice
from the cache; the call one nanosecond after `6 + 12h` reaches the wrapped resolver
again, so the call count goes from one to two. -/
theorem cached_entry_expires_twelve_hours_after_insertion_witness :
    hitsOnly Dim.status "install"
        [Activity.lookup Dim.status 7 7 "install", Activity.lookup Dim.status 8 8 "install"]
        ((run [] (PayloadFieldsRepositoryFromCache.mk
          (Counted.mk (PayloadFieldsRepositoryFromDB.mk emptyDB) 0)
          ⟨0, 12 * Hour, []⟩ ⟨0, 12 * Hour, []⟩ ⟨0, 12 * Hour, []⟩)).Get
            Dim.status 5 6 "install").2 = true ∧
    6 + 12 * Hour < 6 + 12 * Hour + 1 ∧
    ((run [Activity.lookup Dim.status 7 7 "install", Activity.lookup Dim.status 8 8 "install"]
        ((run [] (PayloadFieldsRepositoryFromCache.mk
          (Counted.mk (PayloadFieldsRepositoryFromDB.mk emptyDB) 0)
          ⟨0, 12 * Hour, []⟩ ⟨0, 12 * Hour, []⟩ ⟨0, 12 * Hour, []⟩)).Get
            Dim.status 5 6 "install").2).Get
          Dim.status (6 + 12 * Hour + 1) (6 + 12 * Hour + 2) "install").2.PayloadFields.calls
      = (run [Activity.lookup Dim.status 7 7 "install", Activity.lookup Dim.status 8 8 "install"]
        ((run [] (PayloadFieldsRepositoryFromCache.mk
          (Counted.mk (PayloadFieldsRepositoryFromDB.mk emptyDB) 0)
          ⟨0, 12 * Hour, []⟩ ⟨0, 12 * Hour, []⟩ ⟨0, 12 * Hour, []⟩)).Get
            Dim.status 5 6 "install").2).PayloadFields.calls + 1 :=
  ⟨by decide, Nat.lt_succ_self _,
   (cached_entry_expires_twelve_hours_after_insertion Dim.status
      (Counted.mk (PayloadFieldsRepositoryFromDB.mk emptyDB) 0) _ rfl [] "install" 5 6
      (fun ent h => by simp [run, PayloadFieldsRepositoryFromCache.cache, LRU.item] at h)
      [Activity.lookup Dim.status 7 7 "install", Activity.lookup Dim.status 8 8 "install"]
      (by decide) (6 + 12 * Hour + 1) (6 + 12 * Hour + 2) (Nat.lt_succ_self _)).2.2.1⟩

/-! ## The resolver factory and the direct resolver -/

/-- C6, as stated, fails: the selector values `direct` and `cached` are not the ones the
factory knows; both run into the default case and yield an error and no resolver. -/
theorem factory_rejects_direct_and_cached :
    NewPayloadFieldsRepository emptyDB ⟨⟨"direct"⟩⟩
        = Except.error "unable to configure PayloadFieldRepository implementation" ∧
    NewPayloadFieldsRepository emptyDB ⟨⟨"cached"⟩⟩
        = Except.error "unable to configure PayloadFieldRepository implementation" := by
  constructor <;> simp [NewPayloadFieldsRepository]

/-- C6, amended: the selector values are `db` and `db_with_cache`. For `db` the factory
returns the direct resolver over the given store and no error; for `db_with_cache` it
returns a cached resolver that wraps the direct resolver over the same store, with three
empty unbounded caches of twelve hours to live, and no error; for every other selector it
returns an error and no resolver. -/
theorem factory_selects_by_db_and_db_with_cache (db : GormDB) (cfg : TrackerConfig) :
    (cfg.ConsumerConfig.ConsumerPayloadFieldsRepoImpl = "db" →
      NewPayloadFieldsRepository db cfg = Except.ok (Resolver.fromDB ⟨db⟩)) ∧
    (cfg.ConsumerConfig.ConsumerPayloadFieldsRepoImpl = "db_with_cache" →
      NewPayloadFieldsRepository db cfg = Except.ok (Resolver.fromCache
        { PayloadFields := ⟨db⟩
          statusCache := ⟨0, 12 * Hour, []⟩
          serviceCache := ⟨0, 12 * Hour, []⟩
          sourceCache := ⟨0, 12 * Hour, []⟩ })) ∧
    (cfg.ConsumerConfig.ConsumerPayloadFieldsRepoImpl ≠ "db" →
      cfg.ConsumerConfig.ConsumerPayloadFieldsRepoImpl ≠ "db_with_cache" →
      NewPayloadFieldsRepository db cfg
        = Except.error "unable to configure PayloadFieldRepository implementation") := by
  refine ⟨fun h => ?_, fun h => ?_, fun h1 h2 => ?_⟩
  · simp [NewPayloadFieldsRepository, h]
  · have hne : ¬ (cfg.ConsumerConfig.ConsumerPayloadFieldsRepoImpl = "db") := by
      rw [h]; decide
    simp only [NewPayloadFieldsRepository, if_neg hne, if_pos h,
      newPayloadFieldsRepositoryFromCache, NewLRU]
    simp [Hour]
  · simp [NewPayloadFieldsRepository, h1, h2]

/-- C6, witness of the amended statement at the three kinds of selector. -/
theorem factory_selects_by_db_and_db_with_cache_witness :
    NewPayloadFieldsRepository receivedDB ⟨⟨"db"⟩⟩ = Except.ok (Resolver.fromDB ⟨receivedDB⟩) ∧
    NewPayloadFieldsRepository receivedDB ⟨⟨"db_with_cache"⟩⟩ = Except.ok (Resolver.fromCache
        { PayloadFields := ⟨receivedDB⟩
          statusCache := ⟨0, 12 * Hour, []⟩
          serviceCache := ⟨0, 12 * Hour, []⟩
          sourceCache := ⟨0, 12 * Hour, []⟩ }) ∧
    NewPayloadFieldsRepository receivedDB ⟨⟨"direct"⟩⟩
        = Except.error "unable to configure PayloadFieldRepository implementation" :=
  ⟨(factory_selects_by_db_and_db_with_cache receivedDB ⟨⟨"db"⟩⟩).1 rfl,
   (factory_selects_by_db_and_db_with_cache receivedDB ⟨⟨"db_with_cache"⟩⟩).2.1 rfl,
   (factory_selects_by_db_and_db_with_cache receivedDB ⟨⟨"direct"⟩⟩).2.2 (by decide) (by decide)⟩

/-- C7: the direct resolver cannot fail. When the table holds no row of the given name,
`GetStatus`, `GetService` and `GetSource` return the zero-value row; when it holds one,
they return a row of the table with that name. -/
theorem direct_lookup_returns_zero_row_on_miss (p : PayloadFieldsRepositoryFromDB)
    (name : String) :
    ((∀ r ∈ p.DB.statuses.rows, r.Name ≠ name) → p.GetStatus name = ⟨0, ""⟩) ∧
    ((∀ r ∈ p.DB.services.rows, r.Name ≠ name) → p.GetService name = ⟨0, ""⟩) ∧
    ((∀ r ∈ p.DB.sources.rows, r.Name ≠ name) → p.GetSource name = ⟨0, ""⟩) ∧
    ((∃ r ∈ p.DB.statuses.rows, r.Name = name) →
      p.GetStatus name ∈ p.DB.statuses.rows ∧ (p.GetStatus name).Name = name) ∧
    ((∃ r ∈ p.DB.services.rows, r.Name = name) →
      p.GetService name ∈ p.DB.services.rows ∧ (p.GetService name).Name = name) ∧
    ((∃ r ∈ p.DB.sources.rows, r.Name = name) →
      p.GetSource name ∈ p.DB.sources.rows ∧ (p.GetSource name).Name = name) :=
  ⟨fun h => WhereNameFirst_miss p.DB Dim.status name default h,
   fun h => WhereNameFirst_miss p.DB Dim.service name default h,
   fun h => WhereNameFirst_miss p.DB Dim.source name default h,
   fun h => WhereNameFirst_found p.DB Dim.status name default h,
   fun h => WhereNameFirst_found p.DB Dim.service name default h,
   fun h => WhereNameFirst_found p.DB Dim.source name default h⟩

/-- C7, witness: `install` against the empty table is the zero-value row; `received`
against a table that holds it is that row. -/
theorem direct_lookup_returns_zero_row_on_miss_witness :
    (∀ r ∈ (PayloadFieldsRepositoryFromDB.mk emptyDB).DB.statuses.rows, r.Name ≠ "install") ∧
    (PayloadFieldsRepositoryFromDB.mk emptyDB).GetStatus "install" = ⟨0, ""⟩ ∧
    (∃ r ∈ (PayloadFieldsRepositoryFromDB.mk receivedDB).DB.statuses.rows, r.Name = "received") ∧
    (PayloadFieldsRepositoryFromDB.mk receivedDB).GetStatus "received"
      ∈ (PayloadFieldsRepositoryFromDB.mk receivedDB).DB.statuses.rows :=
  ⟨fun r hr => by simp [emptyDB] at hr,
   (direct_lookup_returns_zero_row_on_miss ⟨emptyDB⟩ "install").1
     (fun r hr => by simp [emptyDB] at hr),
   ⟨⟨1, "received"⟩, by simp [receivedDB], rfl⟩,
   ((direct_lookup_returns_zero_row_on_miss ⟨receivedDB⟩ "received").2.2.2.1
     ⟨⟨1, "received"⟩, by simp [receivedDB], rfl⟩).1⟩

/-! ## Creating dimension rows -/

/-- C10, as stated, fails: creating the status `received` in a store that already holds
it reports a duplicate-key error; no row is added and the store is left as it was. -/
theorem create_existing_status_reports_error :
    (∃ r ∈ receivedDB.statuses.rows, r.Name = "received") ∧
    (CreateStatusTableEntry receivedDB "received").1.Error = some GormError.duplicatedKey ∧
    (CreateStatusTableEntry receivedDB "received").1.DB.statuses.rows = [⟨1, "received"⟩] ∧
    (CreateStatusTableEntry receivedDB "received").2 = ⟨0, "received"⟩ := by
  refine ⟨⟨⟨1, "received"⟩, ?_, rfl⟩, ?_, ?_, ?_⟩
  · simp [receivedDB]
  · decide
  · decide
  · decide

/-- C10, amended: `CreateStatusTableEntry`, `CreateServiceTableEntry` and
`CreateSourceTableEntry` are plain inserts. When the table already holds a row of the
name, the call reports a duplicate-key error, adds no second row, leaves the store
unchanged and returns the row it was about to insert, with identifier zero. When the
table holds no row of the name and the sequence is ahead of the stored identifiers, the
call reports no error, appends exactly one row, of the given name and the next
identifier of the sequence, and returns that row. -/
theorem create_dimension_row_is_plain_insert (d : Dim) (db : GormDB) (name : String) :
    ((∃ r ∈ (db.table d).rows, r.Name = name) →
      (CreateTableEntry d db name).1.Error = some GormError.duplicatedKey ∧
      (CreateTableEntry d db name).1.DB = db ∧
      (CreateTableEntry d db name).2 = ⟨0, name⟩) ∧
    ((∀ r ∈ (db.table d).rows, r.Name ≠ name) → (∀ r ∈ (db.table d).rows, r.Id ≤ (db.table d).seq) →
      (CreateTableEntry d db name).1.Error = none ∧
      (CreateTableEntry d db name).1.DB
        = db.setTable d { rows := (db.table d).rows ++ [⟨(db.table d).seq + 1, name⟩],
                          seq := (db.table d).seq + 1 } ∧
      (CreateTableEntry d db name).2 = ⟨(db.table d).seq + 1, name⟩ ∧
      (CreateTableEntry d db name).2.Id ≠ 0) := by
  have hunf : CreateTableEntry d db name = db.CreateRow d ⟨0, name⟩ := by cases d <;> rfl
  rw [hunf]
  unfold GormDB.CreateRow
  simp only [if_true]
  constructor
  · rintro ⟨r, hr, hn⟩
    have hany : ((db.table d).rows.any
        (fun r => decide (r.Id = (db.table d).seq + 1) || decide (r.Name = name))) = true := by
      rw [List.any_eq_true]
      exact ⟨r, hr, by simp [hn]⟩
    rw [if_pos hany]
    exact ⟨rfl, rfl, rfl⟩
  · intro hn hseq
    have hany : ¬ ((db.table d).rows.any
        (fun r => decide (r.Id = (db.table d).seq + 1) || decide (r.Name = name))) = true := by
      rw [List.any_eq_true]
      rintro ⟨r, hr, h⟩
      have h1 := hn r hr
      have h2 := hseq r hr
      simp only [Bool.or_eq_true, decide_eq_true_eq] at h
      rcases h with h | h
      · omega
      · exact h1 h
    rw [if_neg hany]
    exact ⟨rfl, rfl, rfl, Nat.succ_ne_zero _⟩

/-- C10, witness: `received` is refused by a store that holds it, which stays as it was,
and is inserted, with identifier 1, into the empty store. -/
theorem create_dimension_row_is_plain_insert_witness :
    (∃ r ∈ (receivedDB.table Dim.status).rows, r.Name = "received") ∧
    (CreateTableEntry Dim.status receivedDB "received").1.Error = some GormError.duplicatedKey ∧
    (CreateTableEntry Dim.status receivedDB "received").1.DB = receivedDB ∧
    (∀ r ∈ (emptyDB.table Dim.status).rows, r.Name ≠ "received") ∧
    (∀ r ∈ (emptyDB.table Dim.status).rows, r.Id ≤ (emptyDB.table Dim.status).seq) ∧
    (CreateTableEntry Dim.status emptyDB "received").2
      = ⟨(emptyDB.table Dim.status).seq + 1, "received"⟩ :=
  ⟨⟨⟨1, "received"⟩, by simp [receivedDB, GormDB.table], rfl⟩,
   ((create_dimension_row_is_plain_insert Dim.status receivedDB "received").1
      ⟨⟨1, "received"⟩, by simp [receivedDB, GormDB.table], rfl⟩).1,
   ((create_dimension_row_is_plain_insert Dim.status receivedDB "received").1
      ⟨⟨1, "received"⟩, by simp [receivedDB, GormDB.table], rfl⟩).2.1,
   fun r hr => by simp [emptyDB, GormDB.table] at hr,
   fun r hr => by simp [emptyDB, GormDB.table] at hr,
   ((create_dimension_row_is_plain_insert Dim.status emptyDB "received").2
      (fun r hr => by simp [emptyDB, GormDB.table] at hr)
      (fun r hr => by simp [emptyDB, GormDB.table] at hr)).2.2.1⟩

/-! ## The consumer event loop -/

/-- C8: an iteration that meets no termination signal leaves `run` true, whatever
`consumer.Poll` returned (nothing, a message, an error, committed offsets with or without
error, anything else); and on a `kafka.Error` event the consume-error counter goes up by
exactly one while the consumed-message counter stays. -/
theorem loop_keeps_running_without_signal {H : Type} (onMessage : H → KafkaMessage → H)
    (s : LoopState H) (i : Iteration) (hrun : s.run = true) (hsig : i.sig = none) :
    (loopBody onMessage s i).run = true ∧
    ∀ code, i.event = some (KafkaEvent.Error code) →
      (loopBody onMessage s i).consumeErrors = s.consumeErrors + 1 ∧
      (loopBody onMessage s i).consumedMessages = s.consumedMessages := by
  constructor
  · exact (loopBody_quiet onMessage s i hsig).1.trans hrun
  · intro code hev
    unfold loopBody
    rw [hsig, hev]
    exact ⟨rfl, rfl⟩

/-- C8, witness: a running loop that polls the error `-195`. -/
theorem loop_keeps_running_without_signal_witness :
    (LoopState.mk true () 0 0 0 0).run = true ∧
    (Iteration.mk none (some (KafkaEvent.Error (-195)))).sig = none ∧
    (loopBody (fun (h : Unit) _ => h) (LoopState.mk true () 0 0 0 0)
        (Iteration.mk none (some (KafkaEvent.Error (-195))))).run = true ∧
    (loopBody (fun (h : Unit) _ => h) (LoopState.mk true () 0 0 0 0)
        (Iteration.mk none (some (KafkaEvent.Error (-195))))).consumeErrors = 0 + 1 :=
  ⟨rfl, rfl,
   (loop_keeps_running_without_signal (fun (h : Unit) _ => h) (LoopState.mk true () 0 0 0 0)
      (Iteration.mk none (some (KafkaEvent.Error (-195)))) rfl rfl).1,
   ((loop_keeps_running_without_signal (fun (h : Unit) _ => h) (LoopState.mk true () 0 0 0 0)
      (Iteration.mk none (some (KafkaEvent.Error (-195)))) rfl rfl).2 (-195) rfl).1⟩

/-- C9: an iteration that finds a signal waiting sets `run` to false without calling
`consumer.Poll` or `consumer.Close`. When the resolver can be built and the first
waiting signal comes after `pre`, the event loop returns having polled once per earlier
iteration and never after, and having released the consumer exactly once, whatever the
environment would have offered later. As long as the loop has not been left, the
consumer has not been released. -/
theorem loop_exits_on_signal_and_closes_once {H : Type} (mkHandler : GormDB → Resolver → H)
    (onMessage : H → KafkaMessage → H) (cfg : TrackerConfig) (db : GormDB) :
    (∀ (s : LoopState H) (sg : Signal) (ev : Option KafkaEvent),
      (loopBody onMessage s ⟨some sg, ev⟩).run = false ∧
      (loopBody onMessage s ⟨some sg, ev⟩).polls = s.polls ∧
      (loopBody onMessage s ⟨some sg, ev⟩).closes = s.closes) ∧
    (∀ (r : Resolver) (pre post : List Iteration) (sg : Signal) (ev : Option KafkaEvent),
      NewPayloadFieldsRepository db cfg = Except.ok r → (∀ i ∈ pre, i.sig = none) →
      ∃ s, NewConsumerEventLoop mkHandler onMessage cfg db (pre ++ ⟨some sg, ev⟩ :: post)
            = Outcome.returned s ∧
        s.run = false ∧ s.polls = pre.length ∧ s.closes = 1) ∧
    (∀ (env : List Iteration) (s : LoopState H),
      (NewConsumerEventLoop mkHandler onMessage cfg db env = Outcome.looping s →
        s.run = true ∧ s.closes = 0) ∧
      (NewConsumerEventLoop mkHandler onMessage cfg db env = Outcome.returned s →
        s.run = false ∧ s.closes = 1)) := by
  refine ⟨fun s sg ev => ⟨rfl, rfl, rfl⟩, ?_, ?_⟩
  · intro r pre post sg ev hr hpre
    unfold NewConsumerEventLoop
    rw [hr]
    simp only
    rw [forRun_append]
    have hq := forRun_quiet onMessage pre
      { run := true, handler := mkHandler db r, polls := 0, closes := 0, consumedMessages := 0,
        consumeErrors := 0 } rfl hpre
    have hc := forRun_closes onMessage pre
      { run := true, handler := mkHandler db r, polls := 0, closes := 0, consumedMessages := 0,
        consumeErrors := 0 }
    rw [forRun_cons, if_pos hq.1, forRun_stopped _ _ _ rfl]
    refine ⟨_, rfl, rfl, ?_, ?_⟩
    · show (forRun onMessage _ pre).polls = pre.length
      rw [hq.2]; simp
    · show (forRun onMessage _ pre).closes + 1 = 1
      rw [hc]
  · intro env s
    unfold NewConsumerEventLoop
    cases hr : NewPayloadFieldsRepository db cfg with
    | error err => exact ⟨fun h => (by cases h), fun h => (by cases h)⟩
    | ok r =>
      simp only
      have hc := forRun_closes onMessage env
        { run := true, handler := mkHandler db r, polls := 0, closes := 0, consumedMessages := 0,
          consumeErrors := 0 }
      by_cases hrun : (forRun onMessage
        { run := true, handler := mkHandler db r, polls := 0, closes := 0, consumedMessages := 0,
          consumeErrors := 0 } env).run = true
      · rw [if_pos hrun]
        refine ⟨fun h => ?_, fun h => (by cases h)⟩
        cases h
        exact ⟨hrun, hc⟩
      · rw [if_neg hrun]
        refine ⟨fun h => (by cases h), fun h => ?_⟩
        cases h
        exact ⟨by simpa using hrun, by show _ + 1 = 1; rw [hc]⟩

/-- C9, witness: with the selector `db`, a message is polled, then a `SIGTERM` waits; the
loop returns after one poll and one release, though a further message was on offer. -/
theorem loop_exits_on_signal_and_closes_once_witness :
    NewPayloadFieldsRepository emptyDB ⟨⟨"db"⟩⟩ = Except.ok (Resolver.fromDB ⟨emptyDB⟩) ∧
    (∀ i ∈ [Iteration.mk none (some (KafkaEvent.Message ⟨"k", "v"⟩))], i.sig = none) ∧
    ∃ s, NewConsumerEventLoop (fun _ _ => ()) (fun (h : Unit) _ => h) ⟨⟨"db"⟩⟩ emptyDB
          ([Iteration.mk none (some (KafkaEvent.Message ⟨"k", "v"⟩))] ++
            Iteration.mk (some Signal.SIGTERM) (some (KafkaEvent.Message ⟨"k", "w"⟩)) ::
              [Iteration.mk none (some (KafkaEvent.Message ⟨"k", "x"⟩))])
          = Outcome.returned s ∧
      s.run = false ∧
      s.polls = [Iteration.mk none (some (KafkaEvent.Message ⟨"k", "v"⟩))].length ∧
      s.closes = 1 :=
  ⟨by simp [NewPayloadFieldsRepository],
   fun i hi => by rw [List.mem_singleton] at hi; rw [hi],
   (loop_exits_on_signal_and_closes_once (fun _ _ => ()) (fun (h : Unit) _ => h) ⟨⟨"db"⟩⟩
      emptyDB).2.1 (Resolver.fromDB ⟨emptyDB⟩)
      [Iteration.mk none (some (KafkaEvent.Message ⟨"k", "v"⟩))]
      [Iteration.mk none (some (KafkaEvent.Message ⟨"k", "x"⟩))] Signal.SIGTERM
      (some (KafkaEvent.Message ⟨"k", "w"⟩)) (by simp [NewPayloadFieldsRepository])
      (fun i hi => by rw [List.mem_singleton] at hi; rw [hi])⟩

/-! ## The payload writer -/

/-- C3: the on-conflict update set of `UpsertPayloadByRequestId` is `request_id` plus
exactly those of `account`, `org_id`, `inventory_id`, `system_id` whose incoming value is
non-empty. When the store holds a row with the payload's `RequestId`, the upsert reports
no error and leaves the table as it was except that in each such row every one of
`Account`, `OrgId`, `InventoryId`, `SystemId` is the incoming value when that is
non-empty and the stored value when the incoming value is empty. In particular, after an
upsert with `Account = "A"` that reported no error, an upsert for the same `RequestId`
with `Account = ""` leaves a row of that `RequestId` in the store, with `Account = "A"`. -/
theorem upsert_never_clears_a_stored_field (db : GormDB) (request_id : String) (p : Payloads) :
    (∀ c, c ∈ UpsertPayloadByRequestId.columnsToUpdate p ↔
      c = "request_id" ∨ (c = "account" ∧ p.Account ≠ "") ∨ (c = "org_id" ∧ p.OrgId ≠ "") ∨
      (c = "inventory_id" ∧ p.InventoryId ≠ "") ∨ (c = "system_id" ∧ p.SystemId ≠ "")) ∧
    ((∃ old ∈ db.payloads, old.RequestId = p.RequestId) →
      (UpsertPayloadByRequestId db request_id p).1.Error = none ∧
      (UpsertPayloadByRequestId db request_id p).1.DB.payloads =
        db.payloads.map (fun r =>
          if r.RequestId = p.RequestId then
            { Id := r.Id
              RequestId := r.RequestId
              Account := if p.Account = "" then r.Account else p.Account
              OrgId := if p.OrgId = "" then r.OrgId else p.OrgId
              InventoryId := if p.InventoryId = "" then r.InventoryId else p.InventoryId
              SystemId := if p.SystemId = "" then r.SystemId else p.SystemId }
          else r)) ∧
    (∀ p2 : Payloads, p.Account = "A" → p2.Account = "" → p2.RequestId = p.RequestId →
      (UpsertPayloadByRequestId db request_id p).1.Error = none →
      (∃ r ∈ (UpsertPayloadByRequestId (UpsertPayloadByRequestId db request_id p).1.DB
                request_id p2).1.DB.payloads, r.RequestId = p.RequestId) ∧
      ∀ r ∈ (UpsertPayloadByRequestId (UpsertPayloadByRequestId db request_id p).1.DB
                request_id p2).1.DB.payloads, r.RequestId = p.RequestId → r.Account = "A") := by
  refine ⟨mem_columnsToUpdate p, upsert_conflict db request_id p, ?_⟩
  intro p2 hA h2 hreq herr
  have hne : p.Account ≠ "" := by rw [hA]; decide
  have h1 := upsert_sets_account db request_id p hne herr
  obtain ⟨r1, hr1, hr1req⟩ := h1.1
  have hex : ∃ old ∈ (UpsertPayloadByRequestId db request_id p).1.DB.payloads,
      old.RequestId = p2.RequestId := ⟨r1, hr1, by rw [hreq]; exact hr1req⟩
  rw [(upsert_conflict _ request_id p2 hex).2]
  constructor
  · refine ⟨_, List.mem_map.mpr ⟨r1, hr1, rfl⟩, ?_⟩
    rw [if_pos (by rw [hreq]; exact hr1req)]
    exact hr1req
  · intro r hr hrr
    obtain ⟨r0, hr0, hmap⟩ := List.mem_map.mp hr
    by_cases h0 : r0.RequestId = p2.RequestId
    · rw [if_pos h0] at hmap
      rw [← hmap]
      simp only [h2, if_true]
      rw [h1.2 r0 hr0 (by rw [h0, hreq]), hA]
    · rw [if_neg h0] at hmap
      rw [hmap, hreq] at h0
      exact absurd hrr h0

/-- C3, witness: the stored payload `r1` has `Account = "A"`; an upsert for `r1` that
brings an empty `Account` and the `OrgId` `o` keeps `A` and stores `o`. -/
theorem upsert_never_clears_a_stored_field_witness :
    (∃ old ∈ sampleDB.payloads, old.RequestId = (Payloads.mk 0 "r1" "" "o" "" "").RequestId) ∧
    (UpsertPayloadByRequestId sampleDB "r1" (Payloads.mk 0 "r1" "" "o" "" "")).1.DB.payloads =
      sampleDB.payloads.map (fun r =>
        if r.RequestId = (Payloads.mk 0 "r1" "" "o" "" "").RequestId then
          { Id := r.Id
            RequestId := r.RequestId
            Account := if (Payloads.mk 0 "r1" "" "o" "" "").Account = "" then r.Account
              else (Payloads.mk 0 "r1" "" "o" "" "").Account
            OrgId := if (Payloads.mk 0 "r1" "" "o" "" "").OrgId = "" then r.OrgId
              else (Payloads.mk 0 "r1" "" "o" "" "").OrgId
            InventoryId := if (Payloads.mk 0 "r1" "" "o" "" "").InventoryId = "" then r.InventoryId
              else (Payloads.mk 0 "r1" "" "o" "" "").InventoryId
            SystemId := if (Payloads.mk 0 "r1" "" "o" "" "").SystemId = "" then r.SystemId
              else (Payloads.mk 0 "r1" "" "o" "" "").SystemId }
        else r) ∧
    (UpsertPayloadByRequestId sampleDB "r1" (Payloads.mk 0 "r1" "" "o" "" "")).1.DB.payloads =
      [Payloads.mk 1 "r1" "A" "o" "" ""] :=
  ⟨⟨Payloads.mk 1 "r1" "A" "" "" "", by simp [sampleDB], rfl⟩,
   ((upsert_never_clears_a_stored_field sampleDB "r1" (Payloads.mk 0 "r1" "" "o" "" "")).2.1
      ⟨Payloads.mk 1 "r1" "A" "" "" "", by simp [sampleDB], rfl⟩).2,
   by decide⟩

/-- C4, the code at the failing input: the parameter `request_id` is not read. With the
argument `r1` and a payload whose `RequestId` is `r2`, the empty store gains a row for
`r2` and none for `r1`, so that `GetPayloadByRequestId` finds nothing under `r1`; and a
store that already holds `r1` gains a second row, whose new identifier is returned
instead of the identifier of the row for `r1`. -/
theorem upsert_keys_on_payload_not_on_argument :
    (UpsertPayloadByRequestId emptyDB "r1" (Payloads.mk 0 "r2" "A" "" "" "")).1.DB.payloads
      = [Payloads.mk 1 "r2" "A" "" "" ""] ∧
    (GetPayloadByRequestId
        (UpsertPayloadByRequestId emptyDB "r1" (Payloads.mk 0 "r2" "A" "" "" "")).1.DB "r1").2
      = some GormError.recordNotFound ∧
    (GetPayloadByRequestId sampleDB "r1").1 = Payloads.mk 1 "r1" "A" "" "" "" ∧
    (UpsertPayloadByRequestId sampleDB "r1" (Payloads.mk 0 "r2" "B" "" "" "")).1.DB.payloads
      = [Payloads.mk 1 "r1" "A" "" "" "", Payloads.mk 2 "r2" "B" "" "" ""] ∧
    (UpsertPayloadByRequestId sampleDB "r1" (Payloads.mk 0 "r2" "B" "" "" "")).2 = 2 := by
  refine ⟨?_, ?_, ?_, ?_, ?_⟩ <;> decide

/-- C5: `InsertPayloadStatus` leaves `source_id` out of the columns of its `INSERT`
exactly when the event's `Source` is the zero-value row, and the row it stores then has
`NULL` there. For every other `Source` the statement names all columns and writes, as
`source_id`, the identifier of the event's `Source` (the identifier the event carried
whenever that was set). When the call reports no error, the row of the statement is the
one appended to the table. -/
theorem insert_payload_status_omits_source_id_iff_unresolved (db : GormDB)
    (ps : PayloadStatuses) :
    ("source_id" ∉ (InsertPayloadStatus db ps).2.2.columns ↔ ps.Source = ⟨0, ""⟩) ∧
    (ps.Source = ⟨0, ""⟩ → (InsertPayloadStatus db ps).2.2.row.SourceId = none) ∧
    (ps.Source ≠ ⟨0, ""⟩ →
      (InsertPayloadStatus db ps).2.2.columns = payloadStatusColumns ∧
      (InsertPayloadStatus db ps).2.2.row.SourceId
        = some (InsertPayloadStatus db ps).2.1.Source.Id ∧
      (ps.Source.Id ≠ 0 → (InsertPayloadStatus db ps).2.2.row.SourceId = some ps.Source.Id)) ∧
    ((InsertPayloadStatus db ps).1.Error = none →
      (InsertPayloadStatus db ps).1.DB.payloadStatuses
        = db.payloadStatuses ++ [(InsertPayloadStatus db ps).2.2.row]) := by
  have hdef : (default : Sources) = ⟨0, ""⟩ := rfl
  by_cases hsrc : ps.Source = ⟨0, ""⟩
  · have hunf : InsertPayloadStatus db ps = db.CreatePayloadStatus ["source_id"] ps := by
      unfold InsertPayloadStatus
      rw [if_pos (by rw [hdef, hsrc])]
    have hst := CreatePayloadStatus_statement db ["source_id"] ps
    rw [hunf, hst.2.1]
    refine ⟨?_, ?_, fun h => absurd hsrc h, ?_⟩
    · rw [insertStatement_columns]
      exact ⟨fun _ => hsrc, fun _ => by decide⟩
    · intro _; rfl
    · intro herr; rw [hst.2.2 herr]
  · have hunf : InsertPayloadStatus db ps = db.CreatePayloadStatus [] ps := by
      unfold InsertPayloadStatus
      rw [if_neg (by rw [hdef]; exact fun h => hsrc h.symm)]
    have hst := CreatePayloadStatus_statement db [] ps
    have hset := saveAssociations_set db ps (by rw [hdef]; exact hsrc)
    rw [hunf, hst.2.1, hst.1]
    rw [insertStatement_columns]
    refine ⟨?_, fun h => absurd h hsrc, fun _ => ⟨by decide, ?_, ?_⟩, ?_⟩
    · exact ⟨fun h => absurd (by decide) h, fun h => absurd h hsrc⟩
    · show some (db.saveAssociations ps).2.SourceId = _
      rw [hset.1]
    · intro hid
      show some (db.saveAssociations ps).2.SourceId = _
      rw [hset.1, hset.2 hid]
    · intro herr; rw [hst.2.2 herr]

/-- C5, witness: an event for the stored payload, status and service. Without a source
the `INSERT` has no `source_id` column; with the stored source `inventory` it writes the
source's identifier 1, and the row is stored. -/
theorem insert_payload_status_omits_source_id_iff_unresolved_witness :
    (PayloadStatuses.mk 1 1 1 0 ⟨0, ""⟩ 5 "" "" "A" "").Source = ⟨0, ""⟩ ∧
    (InsertPayloadStatus sampleDB (PayloadStatuses.mk 1 1 1 0 ⟨0, ""⟩ 5 "" "" "A" "")).2.2.row.SourceId
      = none ∧
    (PayloadStatuses.mk 1 1 1 0 ⟨1, "inventory"⟩ 5 "" "" "A" "").Source ≠ ⟨0, ""⟩ ∧
    (PayloadStatuses.mk 1 1 1 0 ⟨1, "inventory"⟩ 5 "" "" "A" "").Source.Id ≠ 0 ∧
    (InsertPayloadStatus sampleDB
        (PayloadStatuses.mk 1 1 1 0 ⟨1, "inventory"⟩ 5 "" "" "A" "")).2.2.row.SourceId
      = some (PayloadStatuses.mk 1 1 1 0 ⟨1, "inventory"⟩ 5 "" "" "A" "").Source.Id ∧
    (InsertPayloadStatus sampleDB
        (PayloadStatuses.mk 1 1 1 0 ⟨1, "inventory"⟩ 5 "" "" "A" "")).1.Error = none ∧
    (InsertPayloadStatus sampleDB
        (PayloadStatuses.mk 1 1 1 0 ⟨1, "inventory"⟩ 5 "" "" "A" "")).1.DB.payloadStatuses
      = sampleDB.payloadStatuses ++
        [(InsertPayloadStatus sampleDB
          (PayloadStatuses.mk 1 1 1 0 ⟨1, "inventory"⟩ 5 "" "" "A" "")).2.2.row] :=
  ⟨rfl,
   (insert_payload_status_omits_source_id_iff_unresolved sampleDB
      (PayloadStatuses.mk 1 1 1 0 ⟨0, ""⟩ 5 "" "" "A" "")).2.1 rfl,
   by decide, by decide,
   ((insert_payload_status_omits_source_id_iff_unresolved sampleDB
      (PayloadStatuses.mk 1 1 1 0 ⟨1, "inventory"⟩ 5 "" "" "A" "")).2.2.1 (by decide)).2.2
      (by decide),
   by decide,
   (insert_payload_status_omits_source_id_iff_unresolved sampleDB
      (PayloadStatuses.mk 1 1 1 0 ⟨1, "inventory"⟩ 5 "" "" "A" "")).2.2.2 (by decide)⟩

end PayloadTracker
